import Mathlib

/-!
# The Win32 platform layer of the 2D game engine (`src/win32.cc`)

A shallow embedding of the platform stub: the off-screen buffer and its resize, the window
procedure, the timer helpers, the message drain `win32ProcessPendingMessages` and the entry
point `WinMain` with its frame loop.

Conventions of the embedding.

* The file-level variables (`kWidth`, `kHeight`, `kScale`, `gRunning`, `gGlobalBackBuffer`,
  `gInput`) are the fields of one record `Globals` that every function takes and returns.
* Calls that leave the program (the game-logic collaborator, `VirtualAlloc`, `VirtualFree`,
  `MessageBoxA`, the blit) are recorded, in order, as a list of `Event`s.
* What the operating system decides is an input: the messages each drain finds, the counter
  readings, the address `VirtualAlloc` returns, whether `RegisterClassA` and `CreateWindowExA`
  succeed.
* `int` is `Int` with an explicit two's complement wrap where a result may leave 32 bits,
  `LONGLONG` likewise with 64 bits; `WPARAM` and `LPARAM` are the 64-bit patterns as `Nat`.
* `f64` seconds are exact rationals.
-/

namespace Win32

/-! ## Constants of the Windows SDK headers used by the source -/

/-- Message code `WM_DESTROY` of the Windows SDK. -/
def WM_DESTROY : Nat := 0x0002
/-- Message code `WM_PAINT` of the Windows SDK. -/
def WM_PAINT : Nat := 0x000F
/-- Message code `WM_CLOSE` of the Windows SDK. -/
def WM_CLOSE : Nat := 0x0010
/-- Message code `WM_QUIT` of the Windows SDK. -/
def WM_QUIT : Nat := 0x0012
/-- Message code `WM_ACTIVATEAPP` of the Windows SDK. -/
def WM_ACTIVATEAPP : Nat := 0x001C
/-- Message code `WM_KEYDOWN` of the Windows SDK. -/
def WM_KEYDOWN : Nat := 0x0100
/-- Message code `WM_KEYUP` of the Windows SDK. -/
def WM_KEYUP : Nat := 0x0101
/-- Message code `WM_SYSKEYDOWN` of the Windows SDK. -/
def WM_SYSKEYDOWN : Nat := 0x0104
/-- Message code `WM_SYSKEYUP` of the Windows SDK. -/
def WM_SYSKEYUP : Nat := 0x0105
/-- Message code `WM_MOUSEMOVE` of the Windows SDK. -/
def WM_MOUSEMOVE : Nat := 0x0200
/-- Message code `WM_LBUTTONDOWN` of the Windows SDK. -/
def WM_LBUTTONDOWN : Nat := 0x0201
/-- Message code `WM_LBUTTONUP` of the Windows SDK. -/
def WM_LBUTTONUP : Nat := 0x0202

/-- Virtual key code of Escape. -/
def VK_ESCAPE : Nat := 0x1B
/-- Virtual key code of F1. -/
def VK_F1 : Nat := 0x70
/-- Virtual key code of F4. -/
def VK_F4 : Nat := 0x73
/-- Virtual key code of F12. -/
def VK_F12 : Nat := 0x7B
/-- The character constant `'0'`. -/
def CHAR_0 : Nat := 0x30
/-- The character constant `'9'`. -/
def CHAR_9 : Nat := 0x39
/-- Compression code `BI_RGB` of the Windows SDK. -/
def BI_RGB : Nat := 0
/-- The value of `sizeof(BITMAPINFOHEADER)`. -/
def sizeofBITMAPINFOHEADER : Nat := 40

/-! ## Machine integers -/

/-- Two's complement value of an integer kept in a 32-bit `int`. -/
def wrapInt32 (z : Int) : Int := (z + 2 ^ 31) % 2 ^ 32 - 2 ^ 31

/-- Two's complement value of an integer kept in a 64-bit `LONGLONG`. -/
def wrapInt64 (z : Int) : Int := (z + 2 ^ 63) % 2 ^ 64 - 2 ^ 63

/-- Conversion of an `int` to the unsigned 64-bit `SIZE_T`. -/
def toSizeT (z : Int) : Nat := (z % 2 ^ 64).toNat

/-- The cast `(short)` of a 16-bit word followed by the widening to `int`. -/
def toShort (w : Nat) : Int :=
  if w % 65536 < 32768 then ((w % 65536 : Nat) : Int) else ((w % 65536 : Nat) : Int) - 65536

/-- The macro `GET_X_LPARAM` of `windowsx.h`: the low word, read as a signed 16-bit value. -/
def GET_X_LPARAM (lp : Nat) : Int := toShort (lp % 65536)

/-- The macro `GET_Y_LPARAM` of `windowsx.h`: bits 16 to 31, read as a signed 16-bit value. -/
def GET_Y_LPARAM (lp : Nat) : Int := toShort ((lp / 65536) % 65536)

/-! ## Structures -/

/-- The fields of `BITMAPINFOHEADER` that the source writes. -/
structure BITMAPINFOHEADER where
  biSize : Nat
  biWidth : Int
  biHeight : Int
  biPlanes : Nat
  biBitCount : Nat
  biCompression : Nat
deriving DecidableEq

/-- The structure `Win32OffScreenBuffer`; `memory` is an address and `0` is the null pointer. -/
structure Win32OffScreenBuffer where
  info : BITMAPINFOHEADER
  memory : Nat
  width : Int
  height : Int
  pitch : Int
deriving DecidableEq

/-- Modelled from the spec: the structure `GameInput` of `game_impl.h`, a header that is not
among the sources. The fields are those `win32.cc` reads and writes, which are the fields the
specification lists for the input state: the digit and function-key latches, the cursor
position, `click`, `lastClick` and the frame time in seconds. -/
structure GameInput where
  functionKey : Int
  number : Int
  x : Int
  y : Int
  click : Bool
  lastClick : Bool
  dt : ℚ
deriving DecidableEq

/-- Modelled from the spec: the structure `GameOffScreenBuffer` of `game_impl.h`, a header that
is not among the sources, with the fields `win32.cc` fills: pixel memory, width, height. -/
structure GameOffScreenBuffer where
  memory : Nat
  width : Int
  height : Int
deriving DecidableEq

/-- The file-level variables of `win32.cc`. -/
structure Globals where
  kWidth : Int
  kHeight : Int
  kScale : Int
  gRunning : Bool
  gGlobalBackBuffer : Win32OffScreenBuffer
  gInput : GameInput
deriving DecidableEq

/-- A message as `PeekMessage` hands it over: code, `wParam`, `lParam`. -/
structure MSG where
  message : Nat
  wParam : Nat
  lParam : Nat
deriving DecidableEq

/-- One thing a call of `PeekMessage` makes happen: it returns a queued message to the loop, or
the system calls the window procedure directly with a sent message while the loop waits. -/
inductive Delivery where
  | queued (m : MSG)
  | sent (msg : Nat)
deriving DecidableEq

/-- The calls that leave the platform layer, in the order they are made. `pump` marks the entry
into `win32ProcessPendingMessages`, `paint` the blit of the `WM_PAINT` handler, `present` the
blit at the end of a loop iteration. -/
inductive Event where
  | initGame
  | virtualFree (address : Nat)
  | virtualAlloc (size : Nat) (result : Nat)
  | messageBox
  | pump
  | paint
  | gameUpdateAndRender (buffer : GameOffScreenBuffer) (input : GameInput)
  | present
  | doneGame
deriving DecidableEq

/-! ## Window management -/

/-- The function `win32ResizeDIBSection`. `allocated` is the address `VirtualAlloc` returns
(`0` when it fails). The second component lists the calls to the system allocator. -/
def win32ResizeDIBSection (buffer : Win32OffScreenBuffer) (width height : Int) (allocated : Nat) :
    Win32OffScreenBuffer × List Event :=
  let freed : List Event := if buffer.memory ≠ 0 then [Event.virtualFree buffer.memory] else []
  let bytesPerPixel : Int := 4
  let info : BITMAPINFOHEADER :=
    { buffer.info with
      biSize := sizeofBITMAPINFOHEADER
      biWidth := width
      biHeight := wrapInt32 (-height)
      biPlanes := 1
      biBitCount := 32
      biCompression := BI_RGB }
  let bitmapMemorySize : Int := wrapInt32 (wrapInt32 (width * height) * bytesPerPixel)
  ({ buffer with info := info, width := width, height := height, memory := allocated },
   freed ++ [Event.virtualAlloc (toSizeT bitmapMemorySize) allocated])

/-- The window procedure `win32MainWindowCallback`: its effect on the globals and the blit it
makes. `DefWindowProcA` belongs to the system and touches no variable of the program. -/
def win32MainWindowCallback (g : Globals) (msg : Nat) : Globals × List Event :=
  if msg = WM_CLOSE then ({ g with gRunning := false }, [])
  else if msg = WM_ACTIVATEAPP then (g, [])
  else if msg = WM_DESTROY then ({ g with gRunning := false }, [])
  else if msg = WM_SYSKEYDOWN ∨ msg = WM_SYSKEYUP ∨ msg = WM_KEYUP ∨ msg = WM_KEYDOWN then (g, [])
  else if msg = WM_PAINT then (g, [Event.paint])
  else (g, [])

/-! ## Time handling -/

/-- The function `timePeriod`: the difference of two counter readings, in a `LONGLONG`. -/
def timePeriod (a b : Int) : Int := wrapInt64 (b - a)

/-- The function `timeToSecs`; `freq` is what `QueryPerformanceFrequency` reports. The quotient
of the two `f64` values is taken exactly. -/
def timeToSecs (freq : Int) (period : Int) : ℚ := (period : ℚ) / (freq : ℚ)

/-! ## Main loop -/

/-- The local `wasDown` of the keyboard case: bit 30 of `lParam`. -/
def wasDown (lParam : Nat) : Bool := (lParam &&& (1 <<< 30)) != 0

/-- The local `isDown` of the keyboard case. The mask `1 << 31` is a negative `int`, widened to
the 64 bits of `LPARAM` with its sign, so the test covers bits 31 to 63. -/
def isDown (lParam : Nat) : Bool := (lParam &&& 0xFFFFFFFF80000000) == 0

/-- The local `altKeyWasDown` of the keyboard case: bit 29 of `lParam`. -/
def altKeyWasDown (lParam : Nat) : Bool := (lParam &&& (1 <<< 29)) != 0

/-- The local `vkCode` of the keyboard case: `wParam` cut to 32 bits. -/
def vkCode (m : MSG) : Nat := m.wParam % 2 ^ 32

/-- The body of the keyboard case of `win32ProcessPendingMessages` (the four key messages).
Under the guards the unsigned subtractions do not wrap. -/
def keyboardCase (g : Globals) (m : MSG) : Globals :=
  if isDown m.lParam && (wasDown m.lParam != isDown m.lParam) then
    if vkCode m = VK_ESCAPE ∨ (vkCode m = VK_F4 ∧ altKeyWasDown m.lParam = true) then
      { g with gRunning := false }
    else if VK_F1 ≤ vkCode m ∧ vkCode m ≤ VK_F12 then
      { g with gInput := { g.gInput with functionKey := ((vkCode m - VK_F1 + 1 : Nat) : Int) } }
    else if CHAR_0 ≤ vkCode m ∧ vkCode m ≤ CHAR_9 then
      { g with gInput := { g.gInput with number := ((vkCode m - CHAR_0 : Nat) : Int) } }
    else g
  else g

/-- The cursor update shared by the three pointer cases. -/
def setCursor (g : Globals) (m : MSG) : Globals :=
  { g with gInput := { g.gInput with
      x := Int.tdiv (GET_X_LPARAM m.lParam) g.kScale
      y := Int.tdiv (GET_Y_LPARAM m.lParam) g.kScale } }

/-- One pass through the body of the `while (PeekMessage(..))` loop, for the message `m`. -/
def processMessage (g : Globals) (m : MSG) : Globals × List Event :=
  let g1 : Globals := if m.message = WM_QUIT then { g with gRunning := false } else g
  let g2 : Globals := { g1 with gInput := { g1.gInput with lastClick := g1.gInput.click } }
  if m.message = WM_SYSKEYDOWN ∨ m.message = WM_SYSKEYUP ∨ m.message = WM_KEYUP
      ∨ m.message = WM_KEYDOWN then
    (keyboardCase g2 m, [])
  else if m.message = WM_LBUTTONDOWN then
    (setCursor { g2 with gInput := { g2.gInput with click := true } } m, [])
  else if m.message = WM_LBUTTONUP then
    (setCursor { g2 with gInput := { g2.gInput with click := false } } m, [])
  else if m.message = WM_MOUSEMOVE then
    (setCursor g2 m, [])
  else
    win32MainWindowCallback g2 m.message

/-- The effect of one delivery on the program. -/
def deliver (g : Globals) : Delivery → Globals × List Event
  | Delivery.queued m => processMessage g m
  | Delivery.sent msg => win32MainWindowCallback g msg

/-- The function `win32ProcessPendingMessages`, run on what its `PeekMessage` calls deliver
before the queue is empty. -/
def win32ProcessPendingMessages (g : Globals) : List Delivery → Globals × List Event
  | [] => (g, [])
  | d :: ds =>
    ((win32ProcessPendingMessages (deliver g d).1 ds).1,
     (deliver g d).2 ++ (win32ProcessPendingMessages (deliver g d).1 ds).2)

/-- What the system supplies to one iteration of the frame loop: the deliveries its drain sees
and the counter reading of its `timeNow()`. -/
structure Frame where
  pending : List Delivery
  now : Int
deriving DecidableEq

/-- The `GameInput input` that an iteration builds after the drain. -/
def frameInput (freq : Int) (g : Globals) (time now : Int) : GameInput :=
  { functionKey := g.gInput.functionKey
    number := g.gInput.number
    x := g.gInput.x
    y := g.gInput.y
    click := g.gInput.click
    lastClick := g.gInput.lastClick
    dt := timeToSecs freq (timePeriod time now) }

/-- The `GameOffScreenBuffer buffer` that an iteration builds. -/
def frameBuffer (g : Globals) : GameOffScreenBuffer :=
  { memory := g.gGlobalBackBuffer.memory
    width := g.gGlobalBackBuffer.width
    height := g.gGlobalBackBuffer.height }

/-- The two resets after `gameUpdateAndRender` returns. -/
def endFrame (g : Globals) : Globals :=
  { g with gInput := { g.gInput with number := -1, functionKey := 0 } }

/-- Result of running the frame loop on the frames supplied. `exited` tells that the loop
condition was found false; it is `false` when the frames ran out with `gRunning` still set,
and the events are then those of the iterations seen so far. -/
structure LoopResult where
  events : List Event
  exited : Bool
  globals : Globals

/-- The loop `while (gRunning) { .. }` of `WinMain`; `time` is the local of that name. -/
def mainLoop (freq : Int) : Globals → Int → List Frame → LoopResult
  | g, _, [] => { events := [], exited := !g.gRunning, globals := g }
  | g, time, f :: fs =>
    if g.gRunning = true then
      let drained := win32ProcessPendingMessages g f.pending
      let input := frameInput freq drained.1 time f.now
      let rest := mainLoop freq (endFrame drained.1) f.now fs
      { events := [Event.pump] ++ drained.2
          ++ [Event.gameUpdateAndRender (frameBuffer drained.1) input, Event.present]
          ++ rest.events
        exited := rest.exited
        globals := rest.globals }
    else { events := [], exited := true, globals := g }

/-- What the system supplies to one execution of `WinMain`. `gInput` is the value of the
global of that name when `WinMain` is entered. -/
structure Env where
  gInput : GameInput
  allocated : Nat
  registerClassOk : Bool
  createWindowOk : Bool
  freq : Int
  startTime : Int
  frames : List Frame

/-- Result of an execution of `WinMain`: the calls made, the value returned (`none` when the
frames supplied ran out while the loop was still running) and the globals at that point. -/
structure Outcome where
  events : List Event
  exitCode : Option Int
  globals : Globals

/-- The buffer with all fields zero, as a variable of static storage starts. -/
def zeroBuffer : Win32OffScreenBuffer :=
  { info := { biSize := 0, biWidth := 0, biHeight := 0, biPlanes := 0, biBitCount := 0,
              biCompression := 0 }
    memory := 0, width := 0, height := 0, pitch := 0 }

/-- A `GameInput` with all fields zero, as a variable of static storage starts. -/
def zeroInput : GameInput :=
  { functionKey := 0, number := 0, x := 0, y := 0, click := false, lastClick := false, dt := 0 }

/-- The file-level variables when `WinMain` is entered. -/
def initialGlobals (gInput : GameInput) : Globals :=
  { kWidth := 800, kHeight := 600, kScale := 2, gRunning := true,
    gGlobalBackBuffer := zeroBuffer, gInput := gInput }

/-- The assignments of `WinMain` between `GetDC` and the loop. -/
def enterLoop (g : Globals) : Globals :=
  { g with
    gRunning := true
    gInput := { g.gInput with functionKey := 0, click := false, lastClick := false } }

/-- The entry point `WinMain`. -/
def WinMain (env : Env) : Outcome :=
  let g0 := initialGlobals env.gInput
  let resized := win32ResizeDIBSection g0.gGlobalBackBuffer g0.kWidth g0.kHeight env.allocated
  let g1 : Globals := { g0 with gGlobalBackBuffer := resized.1 }
  let startup : List Event := [Event.initGame] ++ resized.2
  if env.registerClassOk = true then
    if env.createWindowOk = true then
      let looped := mainLoop env.freq (enterLoop g1) env.startTime env.frames
      if looped.exited = true then
        { events := startup ++ looped.events ++ [Event.doneGame]
          exitCode := some 0
          globals := looped.globals }
      else
        { events := startup ++ looped.events, exitCode := none, globals := looped.globals }
    else
      { events := startup ++ [Event.messageBox, Event.doneGame], exitCode := some 0, globals := g1 }
  else
    { events := startup ++ [Event.messageBox, Event.doneGame], exitCode := some 0, globals := g1 }

/-- The inputs handed to `gameUpdateAndRender`, in call order. -/
def gameInputs : List Event → List GameInput
  | [] => []
  | Event.gameUpdateAndRender _ input :: es => input :: gameInputs es
  | _ :: es => gameInputs es

/-! ## Vocabulary of the claims and concrete inputs -/

/-- The four message codes that the keyboard case handles. -/
def isKeyMessage (m : MSG) : Prop :=
  m.message = WM_SYSKEYDOWN ∨ m.message = WM_SYSKEYUP ∨ m.message = WM_KEYUP
    ∨ m.message = WM_KEYDOWN

instance (m : MSG) : Decidable (isKeyMessage m) := by unfold isKeyMessage; infer_instance

/-- A down-transition: the key is down now and was not down before. -/
def downTransition (m : MSG) : Prop := isDown m.lParam = true ∧ wasDown m.lParam = false

instance (m : MSG) : Decidable (downTransition m) := by unfold downTransition; infer_instance

/-- The key is Escape, or F4 with Alt held. -/
def quitKey (m : MSG) : Prop :=
  vkCode m = VK_ESCAPE ∨ (vkCode m = VK_F4 ∧ altKeyWasDown m.lParam = true)

instance (m : MSG) : Decidable (quitKey m) := by unfold quitKey; infer_instance

/-- The key is one of F1 to F12. -/
def functionKeyCode (m : MSG) : Prop := VK_F1 ≤ vkCode m ∧ vkCode m ≤ VK_F12

instance (m : MSG) : Decidable (functionKeyCode m) := by unfold functionKeyCode; infer_instance

/-- The key is one of the digits 0 to 9. -/
def digitCode (m : MSG) : Prop := CHAR_0 ≤ vkCode m ∧ vkCode m ≤ CHAR_9

instance (m : MSG) : Decidable (digitCode m) := by unfold digitCode; infer_instance

/-- The per-message copy of `click` into `lastClick` that precedes the switch. -/
def copyClick (g : Globals) : Globals :=
  { g with gInput := { g.gInput with lastClick := g.gInput.click } }

/-- A key-down message for F5 that is a down-transition (no flag bit set). -/
def f5Down : MSG := { message := WM_KEYDOWN, wParam := 0x74, lParam := 0x003F0001 }

/-- Packing of two signed 16-bit client coordinates into an `lParam`, as the system does for the
pointer messages; `high` stands for the upper 32 bits. -/
def pointerLParam (rawX rawY : Int) (high : Nat) : Nat :=
  (rawX % 65536).toNat + 65536 * (rawY % 65536).toNat + 4294967296 * high

/-- Truncation toward zero: the quotient times the divisor is the multiple of the divisor
nearest to the dividend on the side of zero. -/
def truncatesTowardZero (raw scale q : Int) : Prop :=
  (0 ≤ raw → q * scale ≤ raw ∧ raw < (q + 1) * scale) ∧
  (raw ≤ 0 → (q - 1) * scale < raw ∧ raw ≤ q * scale)

/-- The state after the loop body has handled a pointer message. -/
def afterPointer (g : Globals) (m : MSG) : GameInput := (processMessage g m).1.gInput

/-- A reading of the performance counter: a count that is not negative and fits `LONGLONG`. -/
def isTimePoint (t : Int) : Prop := 0 ≤ t ∧ t < 2 ^ 63

/-- The code `functionKey` receives from a function-key message. -/
def functionKeyOf (m : MSG) : Int := (vkCode m : Int) - (VK_F1 : Int) + 1

/-- The digit `number` receives from a digit-key message. -/
def digitOf (m : MSG) : Int := (vkCode m : Int) - (CHAR_0 : Int)

/-- Path condition of the assignment to `gInput.functionKey` in the drain. -/
def writesFunctionKey : Delivery → Prop
  | Delivery.queued m => isKeyMessage m ∧ downTransition m ∧ ¬ quitKey m ∧ functionKeyCode m
  | Delivery.sent _ => False

/-- Path condition of the assignment to `gInput.number` in the drain. -/
def writesNumber : Delivery → Prop
  | Delivery.queued m =>
    isKeyMessage m ∧ downTransition m ∧ ¬ quitKey m ∧ ¬ functionKeyCode m ∧ digitCode m
  | Delivery.sent _ => False

/-- Path condition of an assignment `gRunning = false` in the drain or the window procedure: a
quit message, a down-transition of Escape or Alt+F4, or a close or destroy message that reaches
the window procedure. -/
def stopSignal : Delivery → Prop
  | Delivery.queued m =>
    m.message = WM_QUIT ∨ (isKeyMessage m ∧ downTransition m ∧ quitKey m)
      ∨ m.message = WM_CLOSE ∨ m.message = WM_DESTROY
  | Delivery.sent msg => msg = WM_CLOSE ∨ msg = WM_DESTROY

instance (d : Delivery) : Decidable (writesFunctionKey d) := by
  cases d <;> unfold writesFunctionKey <;> infer_instance

instance (d : Delivery) : Decidable (writesNumber d) := by
  cases d <;> unfold writesNumber <;> infer_instance

instance (d : Delivery) : Decidable (stopSignal d) := by
  cases d <;> unfold stopSignal <;> infer_instance

/-- A down-transition of any key, queued for the loop. -/
def keyEdge : Delivery → Prop
  | Delivery.queued m => isKeyMessage m ∧ downTransition m
  | Delivery.sent _ => False

instance (d : Delivery) : Decidable (keyEdge d) := by
  cases d <;> unfold keyEdge <;> infer_instance

/-- The globals with which `WinMain` enters its loop. -/
def loopEntry (env : Env) : Globals :=
  enterLoop
    { initialGlobals env.gInput with
      gGlobalBackBuffer :=
        (win32ResizeDIBSection zeroBuffer 800 600 env.allocated).1 }

/-- The inputs that the game logic receives during an execution, frame by frame. -/
def inputsSeen (env : Env) : List GameInput := gameInputs (WinMain env).events

/-- A system-key-down message for F4 with the Alt bit set, a down-transition. -/
def altF4Down : MSG := { message := WM_SYSKEYDOWN, wParam := 0x73, lParam := 0x203E0001 }

/-- A key-down message for the digit 1, a down-transition. -/
def digit1Down : MSG := { message := WM_KEYDOWN, wParam := 0x31, lParam := 0x00020001 }

/-- A key-down message for the digit 2, a down-transition. -/
def digit2Down : MSG := { message := WM_KEYDOWN, wParam := 0x32, lParam := 0x00030001 }

/-- An auto-repeat key-down message for F5 (the key was down before). -/
def f5Repeat : MSG := { message := WM_KEYDOWN, wParam := 0x74, lParam := 0x403F0001 }

/-- A key-up message for F5. -/
def f5Up : MSG := { message := WM_KEYUP, wParam := 0x74, lParam := 0xC03F0001 }

/-- An execution with a window, a zero `gInput` at entry and the frames given. -/
def envOf (frames : List Frame) : Env :=
  { gInput := zeroInput, allocated := 0x10000, registerClassOk := true, createWindowOk := true,
    freq := 10000000, startTime := 0, frames := frames }

/-- The kinds of call that the ordering claims speak of. -/
inductive Call where
  | startup
  | pump
  | update
  | present
  | errorDialog
  | teardown
deriving DecidableEq

/-- The kind of a recorded call; allocator calls and repaints from the window procedure have
none. -/
def callOf : Event → Option Call
  | Event.initGame => some Call.startup
  | Event.pump => some Call.pump
  | Event.gameUpdateAndRender _ _ => some Call.update
  | Event.present => some Call.present
  | Event.messageBox => some Call.errorDialog
  | Event.doneGame => some Call.teardown
  | Event.virtualFree _ => none
  | Event.virtualAlloc _ _ => none
  | Event.paint => none

/-- The kinds of the calls of a trace, in order. -/
def calls (es : List Event) : List Call := es.filterMap callOf

/-- The calls of `n` loop iterations: drain, update, present, `n` times over. -/
def iterations : Nat → List Call
  | 0 => []
  | n + 1 => Call.pump :: Call.update :: Call.present :: iterations n

/-- The sequence update, present repeated `n` times. -/
def pairs : Nat → List Call
  | 0 => []
  | n + 1 => Call.update :: Call.present :: pairs n

/-- The calls to the game-logic collaborator and the presents of the loop. -/
def collaboratorCalls (es : List Event) : List Call :=
  (calls es).filter (fun c => c != Call.pump && c != Call.errorDialog)

/-- A key-down message for Escape, a down-transition. -/
def escapeDown : MSG := { message := WM_KEYDOWN, wParam := 0x1B, lParam := 0x00010001 }

/-- A left-button-down message at the raw client position (100, 50). -/
def leftDown : MSG := { message := WM_LBUTTONDOWN, wParam := 1, lParam := 0x00320064 }

/-- A mouse-move message at the raw client position (102, 50), the left button held. -/
def mouseMove : MSG := { message := WM_MOUSEMOVE, wParam := 1, lParam := 0x00320066 }

/-- One call of `win32ResizeDIBSection`: the size asked for and what `VirtualAlloc` returns. -/
structure ResizeCall where
  width : Int
  height : Int
  allocated : Nat
deriving DecidableEq

/-- A sequence of calls of `win32ResizeDIBSection` on one buffer, with the allocator calls made. -/
def resizeAll : Win32OffScreenBuffer → List ResizeCall → Win32OffScreenBuffer × List Event
  | b, [] => (b, [])
  | b, c :: cs =>
    ((resizeAll (win32ResizeDIBSection b c.width c.height c.allocated).1 cs).1,
     (win32ResizeDIBSection b c.width c.height c.allocated).2
       ++ (resizeAll (win32ResizeDIBSection b c.width c.height c.allocated).1 cs).2)

/-- The blocks that are live after a sequence of allocator calls, starting from the blocks
`live`; `none` when a block is released that is not live. A failed allocation (result `0`)
makes no block live. -/
def liveBlocks : List Nat → List Event → Option (List Nat)
  | live, [] => some live
  | live, Event.virtualFree p :: es =>
    if p ∈ live then liveBlocks (live.erase p) es else none
  | live, Event.virtualAlloc _ p :: es =>
    if p = 0 then liveBlocks live es else liveBlocks (p :: live) es
  | live, _ :: es => liveBlocks live es

/-- The size fits: both dimensions are non-negative and the byte count `W * H * 4` fits the
32-bit `int` in which the source computes it. -/
def sizeFits (c : ResizeCall) : Prop :=
  0 ≤ c.width ∧ 0 ≤ c.height ∧ c.width < 2 ^ 31 ∧ c.height < 2 ^ 31 ∧
    c.width * c.height * 4 < 2 ^ 31

instance (c : ResizeCall) : Decidable (sizeFits c) := by unfold sizeFits; infer_instance

/-- The allocation requests in a trace: the sizes asked of `VirtualAlloc`, in order. -/
def allocationRequests : List Event → List Nat
  | [] => []
  | Event.virtualAlloc size _ :: es => size :: allocationRequests es
  | _ :: es => allocationRequests es

/-- The blocks a buffer holds: its `memory`, unless that is the null pointer. -/
def held (b : Win32OffScreenBuffer) : List Nat := if b.memory = 0 then [] else [b.memory]

/-- The digit a delivery assigns to `number`, if it assigns one. -/
def digitWritten : Delivery → Option Int
  | Delivery.queued m => if writesNumber (Delivery.queued m) then some (digitOf m) else none
  | Delivery.sent _ => none

/-- The code a delivery assigns to `functionKey`, if it assigns one. -/
def functionKeyWritten : Delivery → Option Int
  | Delivery.queued m =>
    if writesFunctionKey (Delivery.queued m) then some (functionKeyOf m) else none
  | Delivery.sent _ => none

/-- The digit assigned by the last delivery of a batch that assigns `number`; `none` for a
batch in which no delivery does. -/
def lastDigitWritten : List Delivery → Option Int
  | [] => none
  | d :: ds =>
    match lastDigitWritten ds with
    | some v => some v
    | none => digitWritten d

/-- The code assigned by the last delivery of a batch that assigns `functionKey`; `none` for a
batch in which no delivery does. -/
def lastFunctionKeyWritten : List Delivery → Option Int
  | [] => none
  | d :: ds =>
    match lastFunctionKeyWritten ds with
    | some v => some v
    | none => functionKeyWritten d

/-! # Theorems -/

/-! ## The keyboard case -/

theorem keyboardCase_not_down (g : Globals) (m : MSG) (h : ¬ downTransition m) :
    keyboardCase g m = g := by
  unfold keyboardCase
  unfold downTransition at h
  cases hd : isDown m.lParam <;> cases hw : wasDown m.lParam <;> simp_all

theorem keyboardCase_down (g : Globals) (m : MSG) (h : downTransition m) :
    keyboardCase g m =
      if quitKey m then { g with gRunning := false }
      else if functionKeyCode m then
        { g with gInput := { g.gInput with functionKey := (vkCode m : Int) - (VK_F1 : Int) + 1 } }
      else if digitCode m then
        { g with gInput := { g.gInput with number := (vkCode m : Int) - (CHAR_0 : Int) } }
      else g := by
  unfold keyboardCase
  obtain ⟨hd, hw⟩ := h
  simp only [hd, hw, quitKey, functionKeyCode, digitCode]
  simp only [Bool.true_and, bne_iff_ne, ne_eq, Bool.false_eq_true, not_false_eq_true, if_true]
  split
  · rfl
  · split
    · rename_i hf
      have : ((vkCode m - VK_F1 + 1 : Nat) : Int) = (vkCode m : Int) - (VK_F1 : Int) + 1 := by
        have := hf.1
        omega
      rw [this]
    · split
      · rename_i hc
        have : ((vkCode m - CHAR_0 : Nat) : Int) = (vkCode m : Int) - (CHAR_0 : Int) := by
          have := hc.1
          omega
        rw [this]
      · rfl

theorem processMessage_key (g : Globals) (m : MSG) (h : isKeyMessage m) :
    processMessage g m = (keyboardCase (copyClick g) m, []) := by
  have hq : m.message ≠ WM_QUIT := by
    unfold isKeyMessage at h
    rcases h with h | h | h | h <;> rw [h] <;> decide
  unfold isKeyMessage at h
  simp only [processMessage, hq, if_false, h, if_true, copyClick]

/-- C5: for a keyboard message the loop body is the keyboard case entered after the per-message
copy of `click`, and the keyboard case does the following to the state it is entered with. On a
down-transition: Escape, or F4 with Alt, clears `gRunning` and nothing else; otherwise a code in
F1..F12 sets `functionKey` to `code - F1 + 1`, a value in 1..12, and nothing else; otherwise a
code in '0'..'9' sets `number` to `code - '0'`, a value in 0..9, and nothing else; any other key
changes nothing. Without a down-transition nothing changes. -/
theorem keyboard_message_effect (g : Globals) (m : MSG) (hkey : isKeyMessage m) :
    processMessage g m = (keyboardCase (copyClick g) m, []) ∧
    (∀ s : Globals, downTransition m →
      (quitKey m → keyboardCase s m = { s with gRunning := false }) ∧
      (¬ quitKey m → functionKeyCode m →
        keyboardCase s m =
          { s with gInput :=
              { s.gInput with functionKey := (vkCode m : Int) - (VK_F1 : Int) + 1 } } ∧
        1 ≤ (vkCode m : Int) - (VK_F1 : Int) + 1 ∧ (vkCode m : Int) - (VK_F1 : Int) + 1 ≤ 12) ∧
      (¬ quitKey m → ¬ functionKeyCode m → digitCode m →
        keyboardCase s m =
          { s with gInput := { s.gInput with number := (vkCode m : Int) - (CHAR_0 : Int) } } ∧
        0 ≤ (vkCode m : Int) - (CHAR_0 : Int) ∧ (vkCode m : Int) - (CHAR_0 : Int) ≤ 9) ∧
      (¬ quitKey m → ¬ functionKeyCode m → ¬ digitCode m → keyboardCase s m = s)) ∧
    (∀ s : Globals, ¬ downTransition m → keyboardCase s m = s) := by
  refine ⟨processMessage_key g m hkey, ?_, fun s h => keyboardCase_not_down s m h⟩
  intro s hdown
  have hd := keyboardCase_down s m hdown
  refine ⟨?_, ?_, ?_, ?_⟩
  · intro hq
    rw [hd, if_pos hq]
  · intro hq hf
    rw [hd, if_neg hq, if_pos hf]
    unfold functionKeyCode VK_F1 VK_F12 at hf
    unfold VK_F1
    refine ⟨rfl, ?_, ?_⟩ <;> omega
  · intro hq hf hc
    rw [hd, if_neg hq, if_neg hf, if_pos hc]
    unfold digitCode CHAR_0 CHAR_9 at hc
    unfold CHAR_0
    refine ⟨rfl, ?_, ?_⟩ <;> omega
  · intro hq hf hc
    rw [hd, if_neg hq, if_neg hf, if_neg hc]

/-- Witness of C5: the first press of F5 is a keyboard message; the theorem applies to it. -/
theorem keyboard_message_effect_witness :
    isKeyMessage f5Down ∧ downTransition f5Down ∧ ¬ quitKey f5Down ∧ functionKeyCode f5Down ∧
    (keyboardCase (initialGlobals zeroInput) f5Down).gInput.functionKey = 5 ∧
    (processMessage (initialGlobals zeroInput) f5Down
        = (keyboardCase (copyClick (initialGlobals zeroInput)) f5Down, [])) :=
  ⟨by decide, by decide, by decide, by decide, by decide,
    (keyboard_message_effect (initialGlobals zeroInput) f5Down (by decide)).1⟩

/-! ## Pointer messages -/

theorem GET_X_LPARAM_pointerLParam (rawX rawY : Int) (high : Nat)
    (hx : -32768 ≤ rawX ∧ rawX ≤ 32767) :
    GET_X_LPARAM (pointerLParam rawX rawY high) = rawX := by
  unfold GET_X_LPARAM toShort pointerLParam
  have h1 : ((rawX % 65536).toNat + 65536 * (rawY % 65536).toNat + 4294967296 * high) % 65536
      = (rawX % 65536).toNat := by omega
  rw [h1]
  split <;> omega

theorem GET_Y_LPARAM_pointerLParam (rawX rawY : Int) (high : Nat)
    (hy : -32768 ≤ rawY ∧ rawY ≤ 32767) :
    GET_Y_LPARAM (pointerLParam rawX rawY high) = rawY := by
  unfold GET_Y_LPARAM toShort pointerLParam
  have h1 : ((rawX % 65536).toNat + 65536 * (rawY % 65536).toNat + 4294967296 * high) / 65536
      % 65536 = (rawY % 65536).toNat := by omega
  rw [h1]
  split <;> omega

theorem tdiv_truncatesTowardZero (r s : Int) (hs : 0 < s) :
    truncatesTowardZero r s (Int.tdiv r s) := by
  have key : ∀ a : Int, 0 ≤ a → Int.tdiv a s * s ≤ a ∧ a < (Int.tdiv a s + 1) * s := by
    intro a ha
    have h1 := Int.tdiv_add_tmod a s
    have h2 := Int.tmod_lt_of_pos a hs
    have h3 := Int.tmod_nonneg s ha
    constructor <;> nlinarith
  refine ⟨key r, ?_⟩
  intro hr
  have h := key (-r) (by omega)
  rw [Int.neg_tdiv] at h
  constructor <;> nlinarith [h.1, h.2]

/-- C4: a left-button-down, left-button-up or mouse-move message carrying the signed client
coordinates `(rawX, rawY)` stores `x = rawX / kScale` and `y = rawY / kScale`, the quotients
truncated toward zero, for every positive `kScale`; button-down sets `click`, button-up clears
it, a move leaves it as it was. -/
theorem pointer_message_effect (g : Globals) (m : MSG) (rawX rawY : Int) (high : Nat)
    (hscale : 0 < g.kScale)
    (hx : -32768 ≤ rawX ∧ rawX ≤ 32767) (hy : -32768 ≤ rawY ∧ rawY ≤ 32767)
    (hl : m.lParam = pointerLParam rawX rawY high)
    (hm : m.message = WM_LBUTTONDOWN ∨ m.message = WM_LBUTTONUP ∨ m.message = WM_MOUSEMOVE) :
    (afterPointer g m).x = Int.tdiv rawX g.kScale ∧
    (afterPointer g m).y = Int.tdiv rawY g.kScale ∧
    truncatesTowardZero rawX g.kScale (afterPointer g m).x ∧
    truncatesTowardZero rawY g.kScale (afterPointer g m).y ∧
    (m.message = WM_LBUTTONDOWN → (afterPointer g m).click = true) ∧
    (m.message = WM_LBUTTONUP → (afterPointer g m).click = false) ∧
    (m.message = WM_MOUSEMOVE → (afterPointer g m).click = g.gInput.click) := by
  have hX := GET_X_LPARAM_pointerLParam rawX rawY high hx
  have hY := GET_Y_LPARAM_pointerLParam rawX rawY high hy
  have tx := tdiv_truncatesTowardZero rawX g.kScale hscale
  have ty := tdiv_truncatesTowardZero rawY g.kScale hscale
  rw [← hl] at hX hY
  unfold afterPointer
  have hxy : (processMessage g m).1.gInput.x = Int.tdiv rawX g.kScale ∧
      (processMessage g m).1.gInput.y = Int.tdiv rawY g.kScale := by
    rcases hm with h | h | h <;>
      simp [processMessage, h, setCursor, hX, hY, WM_LBUTTONDOWN, WM_LBUTTONUP, WM_MOUSEMOVE,
        WM_QUIT, WM_SYSKEYDOWN, WM_SYSKEYUP, WM_KEYUP, WM_KEYDOWN]
  rw [hxy.1, hxy.2]
  refine ⟨rfl, rfl, tx, ty, ?_, ?_, ?_⟩ <;> intro h <;>
    simp [processMessage, h, setCursor, WM_LBUTTONDOWN, WM_LBUTTONUP, WM_MOUSEMOVE,
      WM_QUIT, WM_SYSKEYDOWN, WM_SYSKEYUP, WM_KEYUP, WM_KEYDOWN]

/-- Witness of C4: with the scale 2 of the source the raw position (801, 599) of a button-down
is stored as (400, 299), and the raw position (-801, -599) of a move as (-400, -299). -/
theorem pointer_message_effect_witness :
    (afterPointer (initialGlobals zeroInput)
        { message := WM_LBUTTONDOWN, wParam := 1, lParam := pointerLParam 801 599 0 }).x = 400 ∧
    (afterPointer (initialGlobals zeroInput)
        { message := WM_LBUTTONDOWN, wParam := 1, lParam := pointerLParam 801 599 0 }).y = 299 ∧
    (afterPointer (initialGlobals zeroInput)
        { message := WM_LBUTTONDOWN, wParam := 1, lParam := pointerLParam 801 599 0 }).click
      = true ∧
    (afterPointer (initialGlobals zeroInput)
        { message := WM_MOUSEMOVE, wParam := 0, lParam := pointerLParam (-801) (-599) 0 }).x
      = -400 := by
  have h := pointer_message_effect (initialGlobals zeroInput)
    { message := WM_LBUTTONDOWN, wParam := 1, lParam := pointerLParam 801 599 0 } 801 599 0
    (by decide) (by decide) (by decide) rfl (Or.inl rfl)
  have h2 := pointer_message_effect (initialGlobals zeroInput)
    { message := WM_MOUSEMOVE, wParam := 0, lParam := pointerLParam (-801) (-599) 0 } (-801)
    (-599) 0 (by decide) (by decide) (by decide) rfl (Or.inr (Or.inr rfl))
  refine ⟨?_, ?_, h.2.2.2.2.1 rfl, ?_⟩
  · rw [h.1]; decide
  · rw [h.2.1]; decide
  · rw [h2.1]; decide

/-! ## Timer -/

/-- C9: for two counter readings `a` and `b`, `timePeriod a b` is the difference `b - a`, and
when `a ≤ b` its conversion to seconds is not negative; for a positive frequency `timeToSecs`
is the quotient `d / freq` taken exactly, so `timeToSecs` of twice a tick delta is twice
`timeToSecs` of the delta. -/
theorem timer_difference_and_linearity (freq a b d : Int) (hfreq : 0 < freq)
    (ha : isTimePoint a) (hb : isTimePoint b) :
    timePeriod a b = b - a ∧
    (a ≤ b → 0 ≤ timeToSecs freq (timePeriod a b)) ∧
    timeToSecs freq d = (d : ℚ) / (freq : ℚ) ∧
    timeToSecs freq (2 * d) = 2 * timeToSecs freq d := by
  have hp : timePeriod a b = b - a := by
    unfold timePeriod wrapInt64
    unfold isTimePoint at ha hb
    omega
  refine ⟨hp, ?_, rfl, ?_⟩
  · intro hab
    rw [hp]
    unfold timeToSecs
    apply div_nonneg
    · exact_mod_cast (by omega : (0 : Int) ≤ b - a)
    · exact_mod_cast hfreq.le
  · unfold timeToSecs
    push_cast
    ring

/-- Witness of C9: the readings 1000 and 1000 (back to back), 1000 and 4000, at 10 MHz. -/
theorem timer_difference_and_linearity_witness :
    timePeriod 1000 1000 = 0 ∧ 0 ≤ timeToSecs 10000000 (timePeriod 1000 1000) ∧
    timePeriod 1000 4000 = 3000 ∧ 0 ≤ timeToSecs 10000000 (timePeriod 1000 4000) ∧
    timeToSecs 10000000 (2 * 3000) = 2 * timeToSecs 10000000 3000 :=
  have h := timer_difference_and_linearity 10000000 1000 1000 3000 (by decide)
    (by unfold isTimePoint; decide) (by unfold isTimePoint; decide)
  have k := timer_difference_and_linearity 10000000 1000 4000 3000 (by decide)
    (by unfold isTimePoint; decide) (by unfold isTimePoint; decide)
  ⟨h.1, h.2.1 (by decide), k.1, k.2.1 (by decide), h.2.2.2⟩

/-! ## The drain -/

theorem callback_fst (g : Globals) (msg : Nat) :
    (win32MainWindowCallback g msg).1 =
      if msg = WM_CLOSE ∨ msg = WM_DESTROY then { g with gRunning := false } else g := by
  unfold win32MainWindowCallback
  by_cases h1 : msg = WM_CLOSE
  · simp [h1]
  · by_cases h2 : msg = WM_DESTROY
    · simp [h2, WM_DESTROY, WM_CLOSE, WM_ACTIVATEAPP]
    · simp only [h1, h2, if_false, false_or]
      split_ifs <;> rfl

theorem callback_events (g : Globals) (msg : Nat) :
    ∀ e ∈ (win32MainWindowCallback g msg).2, e = Event.paint := by
  unfold win32MainWindowCallback
  split_ifs <;> simp

theorem isKeyMessage_codes (m : MSG) (h : isKeyMessage m) :
    m.message ≠ WM_QUIT ∧ m.message ≠ WM_CLOSE ∧ m.message ≠ WM_DESTROY := by
  unfold isKeyMessage at h
  rcases h with h | h | h | h <;> rw [h] <;> decide

theorem keyboardCase_gRunning (g : Globals) (m : MSG) :
    (keyboardCase g m).gRunning =
      if downTransition m ∧ quitKey m then false else g.gRunning := by
  by_cases hd : downTransition m
  · rw [keyboardCase_down g m hd]
    by_cases hq : quitKey m
    · simp [hd, hq]
    · simp only [hq, if_false, and_false]
      split_ifs <;> rfl
  · rw [keyboardCase_not_down g m hd]
    simp [hd]

theorem keyboardCase_functionKey (g : Globals) (m : MSG) :
    (keyboardCase g m).gInput.functionKey =
      if downTransition m ∧ ¬ quitKey m ∧ functionKeyCode m then functionKeyOf m
      else g.gInput.functionKey := by
  by_cases hd : downTransition m
  · rw [keyboardCase_down g m hd]
    by_cases hq : quitKey m
    · simp [hq]
    · by_cases hf : functionKeyCode m
      · simp [hd, hq, hf, functionKeyOf]
      · simp only [hq, hf, if_false, and_false, not_false_eq_true]
        split_ifs <;> rfl
  · rw [keyboardCase_not_down g m hd]
    simp [hd]

theorem keyboardCase_number (g : Globals) (m : MSG) :
    (keyboardCase g m).gInput.number =
      if downTransition m ∧ ¬ quitKey m ∧ ¬ functionKeyCode m ∧ digitCode m then digitOf m
      else g.gInput.number := by
  by_cases hd : downTransition m
  · rw [keyboardCase_down g m hd]
    by_cases hq : quitKey m
    · simp [hq]
    · by_cases hf : functionKeyCode m
      · simp [hq, hf]
      · by_cases hc : digitCode m
        · simp [hd, hq, hf, hc, digitOf]
        · simp [hq, hf, hc]
  · rw [keyboardCase_not_down g m hd]
    simp [hd]

theorem processMessage_not_key_latches (g : Globals) (m : MSG) (h : ¬ isKeyMessage m) :
    (processMessage g m).1.gInput.functionKey = g.gInput.functionKey ∧
    (processMessage g m).1.gInput.number = g.gInput.number ∧
    (processMessage g m).1.gRunning =
      if m.message = WM_QUIT ∨ m.message = WM_CLOSE ∨ m.message = WM_DESTROY then false
      else g.gRunning := by
  unfold isKeyMessage at h
  simp only [processMessage, h, if_false]
  by_cases h1 : m.message = WM_LBUTTONDOWN
  · simp [h1, setCursor, WM_LBUTTONDOWN, WM_QUIT, WM_CLOSE, WM_DESTROY]
  · by_cases h2 : m.message = WM_LBUTTONUP
    · simp [h2, setCursor, WM_LBUTTONDOWN, WM_LBUTTONUP, WM_QUIT, WM_CLOSE, WM_DESTROY]
    · by_cases h3 : m.message = WM_MOUSEMOVE
      · simp [h3, setCursor, WM_LBUTTONDOWN, WM_LBUTTONUP, WM_MOUSEMOVE, WM_QUIT, WM_CLOSE,
          WM_DESTROY]
      · simp only [h1, h2, h3, if_false, callback_fst]
        by_cases hq : m.message = WM_QUIT
        · simp [hq]
        · by_cases hc : m.message = WM_CLOSE ∨ m.message = WM_DESTROY
          · simp [hq, hc]
          · simp [hq, hc]

theorem processMessage_events (g : Globals) (m : MSG) :
    ∀ e ∈ (processMessage g m).2, e = Event.paint := by
  unfold processMessage
  simp only
  split_ifs <;> first | exact callback_events _ _ | simp

theorem deliver_events (g : Globals) (d : Delivery) :
    ∀ e ∈ (deliver g d).2, e = Event.paint := by
  cases d with
  | queued m => exact processMessage_events g m
  | sent msg => exact callback_events g msg

theorem deliver_gRunning (g : Globals) (d : Delivery) :
    (deliver g d).1.gRunning = if stopSignal d then false else g.gRunning := by
  cases d with
  | queued m =>
    simp only [deliver, stopSignal]
    by_cases hk : isKeyMessage m
    · obtain ⟨h1, h2, h3⟩ := isKeyMessage_codes m hk
      rw [processMessage_key g m hk, keyboardCase_gRunning]
      simp [h1, h2, h3, hk, copyClick]
    · rw [(processMessage_not_key_latches g m hk).2.2]
      simp only [hk, false_and, false_or]
  | sent msg =>
    simp only [deliver, stopSignal, callback_fst]
    split_ifs <;> rfl

theorem deliver_functionKey (g : Globals) (d : Delivery) :
    (deliver g d).1.gInput.functionKey =
      match d with
      | Delivery.queued m => if writesFunctionKey d then functionKeyOf m else g.gInput.functionKey
      | Delivery.sent _ => g.gInput.functionKey := by
  cases d with
  | queued m =>
    simp only [deliver, writesFunctionKey]
    by_cases hk : isKeyMessage m
    · rw [processMessage_key g m hk, keyboardCase_functionKey]
      simp [hk, copyClick]
    · rw [(processMessage_not_key_latches g m hk).1]
      simp [hk]
  | sent msg =>
    simp only [deliver, callback_fst]
    split_ifs <;> rfl

theorem deliver_number (g : Globals) (d : Delivery) :
    (deliver g d).1.gInput.number =
      match d with
      | Delivery.queued m => if writesNumber d then digitOf m else g.gInput.number
      | Delivery.sent _ => g.gInput.number := by
  cases d with
  | queued m =>
    simp only [deliver, writesNumber]
    by_cases hk : isKeyMessage m
    · rw [processMessage_key g m hk, keyboardCase_number]
      simp [hk, copyClick]
    · rw [(processMessage_not_key_latches g m hk).2.1]
      simp [hk]
  | sent msg =>
    simp only [deliver, callback_fst]
    split_ifs <;> rfl

theorem drain_append (g : Globals) (xs ys : List Delivery) :
    win32ProcessPendingMessages g (xs ++ ys) =
      ((win32ProcessPendingMessages (win32ProcessPendingMessages g xs).1 ys).1,
       (win32ProcessPendingMessages g xs).2
         ++ (win32ProcessPendingMessages (win32ProcessPendingMessages g xs).1 ys).2) := by
  induction xs generalizing g with
  | nil => simp [win32ProcessPendingMessages]
  | cons d ds ih => simp [win32ProcessPendingMessages, ih, List.append_assoc]

theorem drain_events (g : Globals) (ds : List Delivery) :
    ∀ e ∈ (win32ProcessPendingMessages g ds).2, e = Event.paint := by
  induction ds generalizing g with
  | nil => simp [win32ProcessPendingMessages]
  | cons d ds ih =>
    intro e he
    simp only [win32ProcessPendingMessages, List.mem_append] at he
    rcases he with he | he
    · exact deliver_events g d e he
    · exact ih _ e he

theorem drain_gRunning (g : Globals) (ds : List Delivery) :
    (win32ProcessPendingMessages g ds).1.gRunning =
      if ∃ d ∈ ds, stopSignal d then false else g.gRunning := by
  induction ds generalizing g with
  | nil => simp [win32ProcessPendingMessages]
  | cons d ds ih =>
    simp only [win32ProcessPendingMessages, ih, deliver_gRunning, List.exists_mem_cons_iff]
    by_cases h1 : stopSignal d <;> by_cases h2 : ∃ x ∈ ds, stopSignal x <;> simp [h1, h2]

theorem drain_functionKey_unchanged (g : Globals) (ds : List Delivery)
    (h : ∀ d ∈ ds, ¬ writesFunctionKey d) :
    (win32ProcessPendingMessages g ds).1.gInput.functionKey = g.gInput.functionKey := by
  induction ds generalizing g with
  | nil => simp [win32ProcessPendingMessages]
  | cons d ds ih =>
    simp only [win32ProcessPendingMessages]
    rw [ih _ (fun x hx => h x (List.mem_cons_of_mem _ hx)), deliver_functionKey]
    have hd := h d (List.mem_cons_self _ _)
    cases d <;> simp [hd]

theorem drain_number_unchanged (g : Globals) (ds : List Delivery)
    (h : ∀ d ∈ ds, ¬ writesNumber d) :
    (win32ProcessPendingMessages g ds).1.gInput.number = g.gInput.number := by
  induction ds generalizing g with
  | nil => simp [win32ProcessPendingMessages]
  | cons d ds ih =>
    simp only [win32ProcessPendingMessages]
    rw [ih _ (fun x hx => h x (List.mem_cons_of_mem _ hx)), deliver_number]
    have hd := h d (List.mem_cons_self _ _)
    cases d <;> simp [hd]

theorem drain_functionKey_last (g : Globals) (pre post : List Delivery) (m : MSG)
    (hw : writesFunctionKey (Delivery.queued m)) (hpost : ∀ d ∈ post, ¬ writesFunctionKey d) :
    (win32ProcessPendingMessages g (pre ++ Delivery.queued m :: post)).1.gInput.functionKey
      = functionKeyOf m := by
  rw [drain_append]
  simp only [win32ProcessPendingMessages]
  rw [drain_functionKey_unchanged _ _ hpost, deliver_functionKey]
  simp [hw]

theorem drain_number_last (g : Globals) (pre post : List Delivery) (m : MSG)
    (hw : writesNumber (Delivery.queued m)) (hpost : ∀ d ∈ post, ¬ writesNumber d) :
    (win32ProcessPendingMessages g (pre ++ Delivery.queued m :: post)).1.gInput.number
      = digitOf m := by
  rw [drain_append]
  simp only [win32ProcessPendingMessages]
  rw [drain_number_unchanged _ _ hpost, deliver_number]
  simp [hw]

/-! ## The frame loop -/

theorem gameInputs_append (xs ys : List Event) :
    gameInputs (xs ++ ys) = gameInputs xs ++ gameInputs ys := by
  induction xs with
  | nil => simp [gameInputs]
  | cons e es ih => cases e <;> simp [gameInputs, ih]

theorem gameInputs_paint (es : List Event) (h : ∀ e ∈ es, e = Event.paint) :
    gameInputs es = [] := by
  induction es with
  | nil => rfl
  | cons e es ih =>
    have he := h e (List.mem_cons_self _ _)
    subst he
    simpa [gameInputs] using ih (fun x hx => h x (List.mem_cons_of_mem _ hx))

theorem mainLoop_stopped (freq : Int) (g : Globals) (time : Int) (fs : List Frame)
    (h : g.gRunning = false) :
    mainLoop freq g time fs = { events := [], exited := true, globals := g } := by
  cases fs <;> simp [mainLoop, h]

theorem mainLoop_cons (freq : Int) (g : Globals) (time : Int) (f : Frame) (fs : List Frame)
    (h : g.gRunning = true) :
    mainLoop freq g time (f :: fs) =
      { events := [Event.pump] ++ (win32ProcessPendingMessages g f.pending).2
          ++ [Event.gameUpdateAndRender (frameBuffer (win32ProcessPendingMessages g f.pending).1)
                (frameInput freq (win32ProcessPendingMessages g f.pending).1 time f.now),
              Event.present]
          ++ (mainLoop freq (endFrame (win32ProcessPendingMessages g f.pending).1) f.now fs).events
        exited := (mainLoop freq (endFrame (win32ProcessPendingMessages g f.pending).1) f.now
          fs).exited
        globals := (mainLoop freq (endFrame (win32ProcessPendingMessages g f.pending).1) f.now
          fs).globals } := by
  simp [mainLoop, h]

theorem mainLoop_inputs_cons (freq : Int) (g : Globals) (time : Int) (f : Frame)
    (fs : List Frame) (h : g.gRunning = true) :
    gameInputs (mainLoop freq g time (f :: fs)).events =
      frameInput freq (win32ProcessPendingMessages g f.pending).1 time f.now ::
        gameInputs
          (mainLoop freq (endFrame (win32ProcessPendingMessages g f.pending).1) f.now fs).events := by
  rw [mainLoop_cons freq g time f fs h]
  simp only []
  rw [gameInputs_append, gameInputs_append, gameInputs_append,
    gameInputs_paint _ (drain_events g f.pending)]
  simp [gameInputs]

theorem mainLoop_idle (freq : Int) (fs : List Frame) :
    ∀ (g : Globals) (time : Int), g.gInput.functionKey = 0 → g.gInput.number = -1 →
      (∀ f ∈ fs, ∀ d ∈ f.pending, ¬ writesFunctionKey d ∧ ¬ writesNumber d) →
      ∀ inp ∈ gameInputs (mainLoop freq g time fs).events,
        inp.functionKey = 0 ∧ inp.number = -1 := by
  induction fs with
  | nil => intro g time _ _ _ inp hin; simp [mainLoop, gameInputs] at hin
  | cons f fs ih =>
    intro g time hf hn hall inp hin
    by_cases hr : g.gRunning = true
    · rw [mainLoop_inputs_cons freq g time f fs hr] at hin
      have hfr := hall f (List.mem_cons_self _ _)
      rcases List.mem_cons.mp hin with h | h
      · subst h
        simp only [frameInput]
        rw [drain_functionKey_unchanged _ _ (fun d hd => (hfr d hd).1),
          drain_number_unchanged _ _ (fun d hd => (hfr d hd).2)]
        exact ⟨hf, hn⟩
      · exact ih _ _ rfl rfl (fun x hx => hall x (List.mem_cons_of_mem _ hx)) inp h
    · rw [mainLoop_stopped freq g time _ (by simpa using hr)] at hin
      simp [gameInputs] at hin

/-! ## The inputs seen by the game logic -/

theorem inputsSeen_eq (env : Env) (hreg : env.registerClassOk = true)
    (hwin : env.createWindowOk = true) :
    inputsSeen env = gameInputs (mainLoop env.freq (loopEntry env) env.startTime env.frames).events := by
  unfold inputsSeen WinMain
  simp only [hreg, hwin, if_true]
  split_ifs <;>
    simp [gameInputs_append, gameInputs, win32ResizeDIBSection, loopEntry, initialGlobals, zeroBuffer]

/-- The inputs from frame `before.length` on are those of the loop restarted at that frame, in
a state that has `gRunning` set. -/
theorem mainLoop_inputs_from (freq : Int) (before : List Frame) :
    ∀ (g : Globals) (time : Int) (rest : List Frame) (i : Nat) (inp : GameInput),
      (gameInputs (mainLoop freq g time (before ++ rest)).events)[before.length + i]? = some inp →
      ∃ (s : Globals) (t : Int), s.gRunning = true ∧
        (gameInputs (mainLoop freq s t rest).events)[i]? = some inp := by
  induction before with
  | nil =>
    intro g time rest i inp h
    by_cases hr : g.gRunning = true
    · exact ⟨g, time, hr, by simpa using h⟩
    · rw [mainLoop_stopped freq g time _ (by simpa using hr)] at h
      simp [gameInputs] at h
  | cons f fs ih =>
    intro g time rest i inp h
    by_cases hr : g.gRunning = true
    · rw [List.cons_append, mainLoop_inputs_cons freq g time f _ hr] at h
      have e : (f :: fs).length + i = (fs.length + i) + 1 := by simp; omega
      rw [e, List.getElem?_cons_succ] at h
      exact ih _ _ rest i inp h
    · rw [mainLoop_stopped freq g time _ (by simpa using hr)] at h
      simp [gameInputs] at h
theorem mainLoop_inputs_reach (freq : Int) (before : List Frame) :
    ∀ (g : Globals) (time : Int) (f : Frame) (rest : List Frame), g.gRunning = true →
      (∀ b ∈ before, ∀ d ∈ b.pending, ¬ stopSignal d) →
      before.length < (gameInputs (mainLoop freq g time (before ++ f :: rest)).events).length := by
  induction before with
  | nil =>
    intro g time f rest hr _
    rw [List.nil_append, mainLoop_inputs_cons freq g time f rest hr]
    simp
  | cons b bs ih =>
    intro g time f rest hr hq
    rw [List.cons_append, mainLoop_inputs_cons freq g time b _ hr]
    have hb : ¬ ∃ d ∈ b.pending, stopSignal d := by
      rintro ⟨d, hd, hs⟩
      exact hq b (List.mem_cons_self _ _) d hd hs
    have hrun : (endFrame (win32ProcessPendingMessages g b.pending).1).gRunning = true := by
      show (win32ProcessPendingMessages g b.pending).1.gRunning = true
      rw [drain_gRunning, if_neg hb, hr]
    have := ih (endFrame (win32ProcessPendingMessages g b.pending).1) b.now f rest hrun
      (fun x hx => hq x (List.mem_cons_of_mem _ hx))
    simpa using this

theorem not_keyEdge_writes (d : Delivery) (h : ¬ keyEdge d) :
    ¬ writesFunctionKey d ∧ ¬ writesNumber d := by
  cases d with
  | queued m =>
    simp only [keyEdge, writesFunctionKey, writesNumber] at *
    constructor
    · rintro ⟨h1, h2, _⟩; exact h ⟨h1, h2⟩
    · rintro ⟨h1, h2, _⟩; exact h ⟨h1, h2⟩
  | sent msg => simp [writesFunctionKey, writesNumber]

theorem digitCode_not_functionKeyCode (m : MSG) (h : digitCode m) : ¬ functionKeyCode m := by
  unfold digitCode CHAR_0 CHAR_9 at h
  unfold functionKeyCode VK_F1 VK_F12
  omega

/-- C2, amended: a digit key, or an F1-F12 key other than F4 with Alt held, goes down in frame
`before.length` and no other key goes down in any frame (auto-repeat, key-up and all other
messages are free). Then the input of that frame carries the mapped value in the latch of the
key, the input of every later frame has `functionKey = 0` and `number = -1`, and the frame of
the press is reached whenever no earlier frame delivers a stop signal. -/
theorem key_press_visible_one_frame (env : Env) (before after : List Frame)
    (pre post : List Delivery) (m : MSG) (now : Int)
    (hreg : env.registerClassOk = true) (hwin : env.createWindowOk = true)
    (hframes : env.frames =
      before ++ { pending := pre ++ Delivery.queued m :: post, now := now } :: after)
    (hkey : isKeyMessage m) (hdown : downTransition m) (hnq : ¬ quitKey m)
    (hframesQuiet : ∀ f ∈ before ++ after, ∀ d ∈ f.pending, ¬ keyEdge d)
    (hbatchQuiet : ∀ d ∈ pre ++ post, ¬ keyEdge d) :
    (∀ inp, (inputsSeen env)[before.length]? = some inp →
      (functionKeyCode m → inp.functionKey = functionKeyOf m) ∧
      (digitCode m → inp.number = digitOf m)) ∧
    (∀ j inp, before.length < j → (inputsSeen env)[j]? = some inp →
      inp.functionKey = 0 ∧ inp.number = -1) ∧
    ((∀ f ∈ before, ∀ d ∈ f.pending, ¬ stopSignal d) →
      before.length < (inputsSeen env).length) := by
  rw [inputsSeen_eq env hreg hwin, hframes]
  have hpost : ∀ d ∈ post, ¬ writesFunctionKey d ∧ ¬ writesNumber d := fun d hd =>
    not_keyEdge_writes d (hbatchQuiet d (List.mem_append.mpr (Or.inr hd)))
  have hafter : ∀ f ∈ after, ∀ d ∈ f.pending, ¬ writesFunctionKey d ∧ ¬ writesNumber d :=
    fun f hf d hd => not_keyEdge_writes d (hframesQuiet f (List.mem_append.mpr (Or.inr hf)) d hd)
  refine ⟨?_, ?_, ?_⟩
  · intro inp h
    obtain ⟨s, t, hs, h0⟩ := mainLoop_inputs_from env.freq before _ _ _ 0 inp (by simpa using h)
    rw [mainLoop_inputs_cons env.freq s t _ after hs] at h0
    simp only [List.getElem?_cons_zero, Option.some.injEq] at h0
    subst h0
    constructor
    · intro hf
      exact drain_functionKey_last s pre post m ⟨hkey, hdown, hnq, hf⟩ (fun d hd => (hpost d hd).1)
    · intro hc
      exact drain_number_last s pre post m
        ⟨hkey, hdown, hnq, digitCode_not_functionKeyCode m hc, hc⟩ (fun d hd => (hpost d hd).2)
  · intro j inp hj h
    obtain ⟨i, rfl⟩ : ∃ i, j = before.length + (i + 1) := ⟨j - before.length - 1, by omega⟩
    obtain ⟨s, t, hs, h0⟩ := mainLoop_inputs_from env.freq before _ _ _ (i + 1) inp h
    rw [mainLoop_inputs_cons env.freq s t _ after hs, List.getElem?_cons_succ] at h0
    exact mainLoop_idle env.freq after _ _ rfl rfl hafter inp (List.getElem?_mem h0)
  · intro hq
    have hr : (loopEntry env).gRunning = true := rfl
    exact mainLoop_inputs_reach env.freq before _ _ _ after hr hq

/-- Witness of C2: F5 goes down in the second frame, repeats in the third, is released in the
fourth; the game sees `functionKey = 5` in the second frame only. -/
theorem key_press_visible_one_frame_witness :
    (inputsSeen (envOf [⟨[], 10⟩, ⟨[Delivery.queued f5Down], 20⟩,
        ⟨[Delivery.queued f5Repeat], 30⟩, ⟨[Delivery.queued f5Up], 40⟩])).map
      (fun inp => (inp.functionKey, inp.number)) = [(0, 0), (5, -1), (0, -1), (0, -1)] ∧
    (∀ inp, (inputsSeen (envOf [⟨[], 10⟩, ⟨[Delivery.queued f5Down], 20⟩,
        ⟨[Delivery.queued f5Repeat], 30⟩, ⟨[Delivery.queued f5Up], 40⟩]))[1]? = some inp →
      inp.functionKey = functionKeyOf f5Down) :=
  ⟨by decide,
   fun inp h =>
    ((key_press_visible_one_frame
      (envOf [⟨[], 10⟩, ⟨[Delivery.queued f5Down], 20⟩,
        ⟨[Delivery.queued f5Repeat], 30⟩, ⟨[Delivery.queued f5Up], 40⟩])
      [⟨[], 10⟩] [⟨[Delivery.queued f5Repeat], 30⟩, ⟨[Delivery.queued f5Up], 40⟩] [] [] f5Down 20
      rfl rfl rfl (by decide) (by decide) (by decide) (by decide) (by decide)).1
      inp h).1 (by decide)⟩

/-- Counterexample to C2 as stated: F4 goes down (was not down, is down) with Alt held, in the
first frame; the game sees `functionKey = 0` in that frame, not the mapped value 4. -/
theorem key_press_alt_f4_not_latched :
    isKeyMessage altF4Down ∧ downTransition altF4Down ∧ functionKeyCode altF4Down ∧
    functionKeyOf altF4Down = 4 ∧
    (inputsSeen (envOf [⟨[Delivery.queued altF4Down], 10⟩])).map
      (fun inp => inp.functionKey) = [0] := by
  decide
/-! ## The order of calls -/

theorem calls_append (xs ys : List Event) : calls (xs ++ ys) = calls xs ++ calls ys := by
  simp [calls, List.filterMap_append]

theorem calls_paint (es : List Event) (h : ∀ e ∈ es, e = Event.paint) : calls es = [] := by
  induction es with
  | nil => rfl
  | cons e es ih =>
    have he := h e (List.mem_cons_self _ _)
    subst he
    simpa [calls, callOf] using ih (fun x hx => h x (List.mem_cons_of_mem _ hx))

theorem mainLoop_calls_cons (freq : Int) (g : Globals) (time : Int) (f : Frame)
    (fs : List Frame) (h : g.gRunning = true) :
    calls (mainLoop freq g time (f :: fs)).events =
      Call.pump :: Call.update :: Call.present ::
        calls
          (mainLoop freq (endFrame (win32ProcessPendingMessages g f.pending).1) f.now fs).events := by
  rw [mainLoop_cons freq g time f fs h]
  simp only []
  rw [calls_append, calls_append, calls_append, calls_paint _ (drain_events g f.pending)]
  simp [calls, callOf]

theorem filter_iterations (n : Nat) :
    (iterations n).filter (fun c => c != Call.pump && c != Call.errorDialog) = pairs n := by
  induction n with
  | zero => rfl
  | succ n ih => simp [iterations, pairs, ih]

theorem mainLoop_calls (freq : Int) (fs : List Frame) :
    ∀ (g : Globals) (time : Int), ∃ n, n ≤ fs.length ∧
      calls (mainLoop freq g time fs).events = iterations n ∧
      ((mainLoop freq g time fs).exited = true ∨
        ((mainLoop freq g time fs).exited = false ∧ n = fs.length ∧ g.gRunning = true ∧
          ∀ f ∈ fs, ∀ d ∈ f.pending, ¬ stopSignal d)) := by
  induction fs with
  | nil =>
    intro g time
    refine ⟨0, le_refl _, by simp [mainLoop, calls, iterations], ?_⟩
    cases hr : g.gRunning <;> simp [mainLoop, hr]
  | cons f fs ih =>
    intro g time
    by_cases hr : g.gRunning = true
    · obtain ⟨n, hn, hc, hx⟩ :=
        ih (endFrame (win32ProcessPendingMessages g f.pending).1) f.now
      refine ⟨n + 1, by simpa using hn, ?_, ?_⟩
      · rw [mainLoop_calls_cons freq g time f fs hr, hc]
        rfl
      · rw [mainLoop_cons freq g time f fs hr]
        simp only []
        rcases hx with hx | ⟨hx0, hx1, hx2, hx3⟩
        · exact Or.inl hx
        · refine Or.inr ⟨hx0, by simp [hx1], hr, ?_⟩
          have hrun : (win32ProcessPendingMessages g f.pending).1.gRunning = true := hx2
          rw [drain_gRunning] at hrun
          intro x hx d hd
          rcases List.mem_cons.mp hx with h | h
          · subst h
            intro hs
            rw [if_pos ⟨d, hd, hs⟩] at hrun
            exact Bool.false_ne_true hrun
          · exact hx3 x h d hd
    · rw [mainLoop_stopped freq g time _ (by simpa using hr)]
      exact ⟨0, Nat.zero_le _, by simp [calls, iterations], Or.inl rfl⟩

theorem mainLoop_calls_stop (freq : Int) (before : List Frame) :
    ∀ (g : Globals) (time : Int) (e : Frame) (after : List Frame), g.gRunning = true →
      (∀ f ∈ before, ∀ d ∈ f.pending, ¬ stopSignal d) → (∃ d ∈ e.pending, stopSignal d) →
      calls (mainLoop freq g time (before ++ e :: after)).events
        = iterations (before.length + 1) ∧
      (mainLoop freq g time (before ++ e :: after)).exited = true ∧
      (mainLoop freq g time (before ++ e :: after)).globals.gRunning = false := by
  induction before with
  | nil =>
    intro g time e after hr _ hs
    have hstop : (endFrame (win32ProcessPendingMessages g e.pending).1).gRunning = false := by
      show (win32ProcessPendingMessages g e.pending).1.gRunning = false
      rw [drain_gRunning, if_pos hs]
    rw [List.nil_append, mainLoop_calls_cons freq g time e after hr,
      mainLoop_cons freq g time e after hr]
    simp only []
    rw [mainLoop_stopped freq _ e.now after hstop]
    exact ⟨by simp [calls, iterations], rfl, hstop⟩
  | cons b bs ih =>
    intro g time e after hr hq hs
    have hb : ¬ ∃ d ∈ b.pending, stopSignal d := by
      rintro ⟨d, hd, hsd⟩
      exact hq b (List.mem_cons_self _ _) d hd hsd
    have hrun : (endFrame (win32ProcessPendingMessages g b.pending).1).gRunning = true := by
      show (win32ProcessPendingMessages g b.pending).1.gRunning = true
      rw [drain_gRunning, if_neg hb, hr]
    obtain ⟨h1, h2, h3⟩ := ih (endFrame (win32ProcessPendingMessages g b.pending).1) b.now e
      after hrun (fun x hx => hq x (List.mem_cons_of_mem _ hx)) hs
    rw [List.cons_append, mainLoop_calls_cons freq g time b _ hr,
      mainLoop_cons freq g time b _ hr]
    simp only []
    exact ⟨by rw [h1]; rfl, h2, h3⟩
theorem mainLoop_events_stop (freq : Int) (before : List Frame) :
    ∀ (g : Globals) (time : Int) (e : Frame) (after : List Frame), g.gRunning = true →
      (∀ f ∈ before, ∀ d ∈ f.pending, ¬ stopSignal d) → (∃ d ∈ e.pending, stopSignal d) →
      ∃ (evs : List Event) (buffer : GameOffScreenBuffer) (input : GameInput),
        (mainLoop freq g time (before ++ e :: after)).events
          = evs ++ [Event.gameUpdateAndRender buffer input, Event.present] := by
  induction before with
  | nil =>
    intro g time e after hr _ hs
    have hstop : (endFrame (win32ProcessPendingMessages g e.pending).1).gRunning = false := by
      show (win32ProcessPendingMessages g e.pending).1.gRunning = false
      rw [drain_gRunning, if_pos hs]
    rw [List.nil_append, mainLoop_cons freq g time e after hr]
    simp only []
    rw [mainLoop_stopped freq _ e.now after hstop]
    exact ⟨_, _, _, List.append_nil _⟩
  | cons b bs ih =>
    intro g time e after hr hq hs
    have hb : ¬ ∃ d ∈ b.pending, stopSignal d := by
      rintro ⟨d, hd, hsd⟩
      exact hq b (List.mem_cons_self _ _) d hd hsd
    have hrun : (endFrame (win32ProcessPendingMessages g b.pending).1).gRunning = true := by
      show (win32ProcessPendingMessages g b.pending).1.gRunning = true
      rw [drain_gRunning, if_neg hb, hr]
    obtain ⟨evs, buffer, input, h⟩ := ih (endFrame (win32ProcessPendingMessages g b.pending).1)
      b.now e after hrun (fun x hx => hq x (List.mem_cons_of_mem _ hx)) hs
    rw [List.cons_append, mainLoop_cons freq g time b _ hr]
    simp only []
    rw [h]
    exact ⟨_, buffer, input, (List.append_assoc _ _ _).symm⟩

theorem WinMain_events_window (env : Env) (hreg : env.registerClassOk = true)
    (hwin : env.createWindowOk = true)
    (hx : (mainLoop env.freq (loopEntry env) env.startTime env.frames).exited = true) :
    (WinMain env).events =
      Event.initGame :: Event.virtualAlloc 1920000 env.allocated ::
        ((mainLoop env.freq (loopEntry env) env.startTime env.frames).events
          ++ [Event.doneGame]) := by
  have e : loopEntry env = enterLoop
      { initialGlobals env.gInput with
        gGlobalBackBuffer :=
          (win32ResizeDIBSection (initialGlobals env.gInput).gGlobalBackBuffer
            (initialGlobals env.gInput).kWidth (initialGlobals env.gInput).kHeight
            env.allocated).1 } := rfl
  unfold WinMain
  simp only [hreg, hwin, if_true, ← e, hx]
  simp only [win32ResizeDIBSection, initialGlobals, zeroBuffer]
  simp
  decide

theorem WinMain_window (env : Env) (hreg : env.registerClassOk = true)
    (hwin : env.createWindowOk = true) :
    calls (WinMain env).events =
      Call.startup :: (calls (mainLoop env.freq (loopEntry env) env.startTime env.frames).events
        ++ (if (mainLoop env.freq (loopEntry env) env.startTime env.frames).exited = true
            then [Call.teardown] else [])) ∧
    (WinMain env).exitCode =
      (if (mainLoop env.freq (loopEntry env) env.startTime env.frames).exited = true
        then some 0 else none) ∧
    (WinMain env).globals =
      (mainLoop env.freq (loopEntry env) env.startTime env.frames).globals := by
  have e : loopEntry env = enterLoop
      { initialGlobals env.gInput with
        gGlobalBackBuffer :=
          (win32ResizeDIBSection (initialGlobals env.gInput).gGlobalBackBuffer
            (initialGlobals env.gInput).kWidth (initialGlobals env.gInput).kHeight
            env.allocated).1 } := rfl
  unfold WinMain
  simp only [hreg, hwin, if_true, ← e]
  split_ifs with hx
  · refine ⟨?_, rfl, rfl⟩
    simp [calls_append, calls, callOf, win32ResizeDIBSection, initialGlobals, zeroBuffer]
  · refine ⟨?_, rfl, rfl⟩
    simp [calls_append, calls, callOf, win32ResizeDIBSection, initialGlobals, zeroBuffer]

theorem WinMain_no_window (env : Env)
    (h : env.registerClassOk = false ∨ env.createWindowOk = false) :
    calls (WinMain env).events = [Call.startup, Call.errorDialog, Call.teardown] ∧
    (WinMain env).exitCode = some 0 := by
  unfold WinMain
  rcases h with h | h
  · simp [h, calls, callOf, win32ResizeDIBSection, initialGlobals, zeroBuffer]
  · cases hr : env.registerClassOk <;>
      simp [h, hr, calls, callOf, win32ResizeDIBSection, initialGlobals, zeroBuffer]

/-- C6: the window exists, no frame before frame `before.length` delivers a stop signal, and
the drain of that frame delivers one (a quit message, a down-transition of Escape or Alt+F4, a
close or destroy message to the window procedure). Then the drain leaves `gRunning` cleared,
the execution consists of startup, `before.length + 1` iterations each made of drain, update
and present (the last one being the iteration of the stop signal, whatever frames the system
would have supplied after it), and one teardown at the end: the trace ends with the update and
the present of that iteration followed at once by `doneGame`. `WinMain` returns 0. A drain and
the end-of-frame resets never set `gRunning` again once it is cleared. -/
theorem stop_signal_ends_loop_after_frame (env : Env) (before after : List Frame) (e : Frame)
    (hreg : env.registerClassOk = true) (hwin : env.createWindowOk = true)
    (hframes : env.frames = before ++ e :: after)
    (hbefore : ∀ f ∈ before, ∀ d ∈ f.pending, ¬ stopSignal d)
    (hstop : ∃ d ∈ e.pending, stopSignal d) :
    (∀ s : Globals, (win32ProcessPendingMessages s e.pending).1.gRunning = false) ∧
    calls (WinMain env).events
      = [Call.startup] ++ iterations (before.length + 1) ++ [Call.teardown] ∧
    (∃ (evs : List Event) (buffer : GameOffScreenBuffer) (input : GameInput),
      (WinMain env).events
        = evs ++ [Event.gameUpdateAndRender buffer input, Event.present, Event.doneGame]) ∧
    (WinMain env).exitCode = some 0 ∧
    (WinMain env).globals.gRunning = false ∧
    (∀ (s : Globals) (ds : List Delivery), s.gRunning = false →
      (win32ProcessPendingMessages s ds).1.gRunning = false ∧
      (endFrame (win32ProcessPendingMessages s ds).1).gRunning = false) := by
  obtain ⟨hc, hx, hg⟩ := WinMain_window env hreg hwin
  obtain ⟨h1, h2, h3⟩ := mainLoop_calls_stop env.freq before (loopEntry env) env.startTime e
    after rfl hbefore hstop
  obtain ⟨evs, buffer, input, h4⟩ := mainLoop_events_stop env.freq before (loopEntry env)
    env.startTime e after rfl hbefore hstop
  rw [← hframes] at h1 h2 h3 h4
  refine ⟨?_, ?_, ?_, ?_, ?_, ?_⟩
  · intro s
    rw [drain_gRunning, if_pos hstop]
  · rw [hc, h1, if_pos h2]
    simp
  · refine ⟨Event.initGame :: Event.virtualAlloc 1920000 env.allocated :: evs, buffer, input,
      ?_⟩
    rw [WinMain_events_window env hreg hwin h2, h4]
    simp
  · rw [hx, if_pos h2]
  · rw [hg, h3]
  · intro s ds hs
    have : (win32ProcessPendingMessages s ds).1.gRunning = false := by
      rw [drain_gRunning, hs]
      split_ifs <;> rfl
    exact ⟨this, this⟩

/-- Witness of C6: Escape goes down in the second of three frames supplied; two iterations run,
then teardown. The same with a close message sent to the window procedure. -/
theorem stop_signal_ends_loop_after_frame_witness :
    calls (WinMain (envOf [⟨[], 10⟩, ⟨[Delivery.queued escapeDown], 20⟩, ⟨[], 30⟩])).events
      = [Call.startup, Call.pump, Call.update, Call.present, Call.pump, Call.update,
          Call.present, Call.teardown] ∧
    calls (WinMain (envOf [⟨[], 10⟩, ⟨[Delivery.sent WM_CLOSE], 20⟩, ⟨[], 30⟩])).events
      = [Call.startup] ++ iterations 2 ++ [Call.teardown] :=
  ⟨(stop_signal_ends_loop_after_frame
      (envOf [⟨[], 10⟩, ⟨[Delivery.queued escapeDown], 20⟩, ⟨[], 30⟩])
      [⟨[], 10⟩] [⟨[], 30⟩] ⟨[Delivery.queued escapeDown], 20⟩ rfl rfl rfl
      (by decide) (by decide)).2.1,
   (stop_signal_ends_loop_after_frame
      (envOf [⟨[], 10⟩, ⟨[Delivery.sent WM_CLOSE], 20⟩, ⟨[], 30⟩])
      [⟨[], 10⟩] [⟨[], 30⟩] ⟨[Delivery.sent WM_CLOSE], 20⟩ rfl rfl rfl
      (by decide) (by decide)).2.1⟩

/-- C7: for every execution, with or without a window, the calls to the game-logic collaborator
and the presents of the loop are startup, then `n` pairs (update, present), then teardown once
`WinMain` returns; `n` is at most the number of frames supplied. `WinMain` returns 0 whenever
it returns, and it does return unless the window exists and no frame supplied delivers a stop
signal (then all frames supplied were run and the loop is still running). Without a window
(class registration or window creation failed) there is no update and no present, the calls
are startup, one error dialog, teardown, and `WinMain` returns 0. -/
theorem entry_point_call_shape (env : Env) :
    ∃ n, n ≤ env.frames.length ∧
      collaboratorCalls (WinMain env).events =
        [Call.startup] ++ pairs n
          ++ (if (WinMain env).exitCode = none then [] else [Call.teardown]) ∧
      ((WinMain env).exitCode = some 0 ∨
        ((WinMain env).exitCode = none ∧ env.registerClassOk = true ∧ env.createWindowOk = true ∧
          n = env.frames.length ∧ ∀ f ∈ env.frames, ∀ d ∈ f.pending, ¬ stopSignal d)) ∧
      (env.registerClassOk = false ∨ env.createWindowOk = false →
        n = 0 ∧ (WinMain env).exitCode = some 0 ∧
        calls (WinMain env).events = [Call.startup, Call.errorDialog, Call.teardown]) := by
  by_cases hw : env.registerClassOk = true ∧ env.createWindowOk = true
  · obtain ⟨hreg, hwin⟩ := hw
    obtain ⟨hc, hx, _⟩ := WinMain_window env hreg hwin
    obtain ⟨n, hn, hcalls, hex⟩ :=
      mainLoop_calls env.freq env.frames (loopEntry env) env.startTime
    refine ⟨n, hn, ?_, ?_, ?_⟩
    · unfold collaboratorCalls
      rw [hc, hx, hcalls]
      rcases hex with he | ⟨he, _⟩
      · simp [he, List.filter_append, filter_iterations]
      · simp [he, List.filter_append, filter_iterations]
    · rcases hex with he | ⟨he, h1, _, h3⟩
      · left; rw [hx, if_pos he]
      · right
        refine ⟨?_, hreg, hwin, h1, h3⟩
        rw [hx, he]; simp
    · intro h
      rcases h with h | h
      · rw [hreg] at h; exact absurd h (by decide)
      · rw [hwin] at h; exact absurd h (by decide)
  · have hf : env.registerClassOk = false ∨ env.createWindowOk = false := by
      cases h1 : env.registerClassOk <;> cases h2 : env.createWindowOk <;> simp_all
    obtain ⟨hc, hx⟩ := WinMain_no_window env hf
    refine ⟨0, Nat.zero_le _, ?_, Or.inl hx, fun _ => ⟨rfl, hx, hc⟩⟩
    unfold collaboratorCalls
    rw [hc, hx]
    decide
/-! ## The latches and the click history, frame by frame -/

/-- C1, at the failing input: the window exists and the first frame drains no message at all.
The input of that frame has `functionKey = 0`, and its `number` is the value the global
`gInput.number` had when `WinMain` was entered, which `WinMain` never sets before the loop; for
a global that starts zeroed this is 0, the digit 0, not the value -1 for no digit. -/
theorem first_frame_number_not_reset :
    (inputsSeen (envOf [⟨[], 10⟩])).map (fun inp => (inp.functionKey, inp.number)) = [(0, 0)] ∧
    (∀ (env : Env) (now : Int), env.registerClassOk = true → env.createWindowOk = true →
      env.frames = [⟨[], now⟩] →
      (inputsSeen env).map (fun inp => (inp.functionKey, inp.number))
        = [(0, env.gInput.number)]) := by
  refine ⟨by decide, ?_⟩
  intro env now hreg hwin hframes
  rw [inputsSeen_eq env hreg hwin, hframes, mainLoop_inputs_cons _ _ _ _ _ rfl]
  simp [mainLoop, gameInputs, frameInput, win32ProcessPendingMessages, loopEntry, enterLoop,
    initialGlobals]

theorem keyboardCase_lastClick (g : Globals) (m : MSG) :
    (keyboardCase g m).gInput.lastClick = g.gInput.lastClick := by
  by_cases hd : downTransition m
  · rw [keyboardCase_down g m hd]
    split_ifs <;> rfl
  · rw [keyboardCase_not_down g m hd]

theorem processMessage_lastClick (g : Globals) (m : MSG) :
    (processMessage g m).1.gInput.lastClick = g.gInput.click := by
  by_cases hk : isKeyMessage m
  · rw [processMessage_key g m hk, keyboardCase_lastClick]
    rfl
  · unfold isKeyMessage at hk
    simp only [processMessage, hk, if_false]
    by_cases h1 : m.message = WM_LBUTTONDOWN
    · simp [h1, setCursor, WM_LBUTTONDOWN, WM_QUIT]
    · by_cases h2 : m.message = WM_LBUTTONUP
      · simp [h2, setCursor, WM_LBUTTONDOWN, WM_LBUTTONUP, WM_QUIT]
      · by_cases h3 : m.message = WM_MOUSEMOVE
        · simp [h3, setCursor, WM_LBUTTONDOWN, WM_LBUTTONUP, WM_MOUSEMOVE, WM_QUIT]
        · simp only [h1, h2, h3, if_false]
          rw [callback_fst]
          split_ifs <;> rfl

/-- C3, at two failing inputs. First: frame 0 drains nothing (`click` is false at its end) and
frame 1 drains a button-down followed by a mouse-move; the game sees `lastClick = true` in
frame 1, the value `click` took inside frame 1. Second: frame 0 drains a button-down (`click`
is true at its end) and frame 1 drains nothing; the game sees `lastClick = false` in frame 1.
The lists hold the pair (`click`, `lastClick`) of each frame. In general the copy is made once
for each queued message: after a batch that ends with a queued message `lastClick` is the value
`click` had just before that message, and an empty batch changes nothing. -/
theorem lastClick_copied_per_message :
    (inputsSeen (envOf [⟨[], 10⟩, ⟨[Delivery.queued leftDown, Delivery.queued mouseMove], 20⟩])).map
      (fun inp => (inp.click, inp.lastClick)) = [(false, false), (true, true)] ∧
    (inputsSeen (envOf [⟨[Delivery.queued leftDown], 10⟩, ⟨[], 20⟩])).map
      (fun inp => (inp.click, inp.lastClick)) = [(true, false), (true, false)] ∧
    (∀ (g : Globals) (ds : List Delivery) (m : MSG),
      (win32ProcessPendingMessages g (ds ++ [Delivery.queued m])).1.gInput.lastClick
        = (win32ProcessPendingMessages g ds).1.gInput.click) ∧
    (∀ g : Globals, (win32ProcessPendingMessages g []).1 = g) := by
  refine ⟨by decide, by decide, ?_, fun _ => rfl⟩
  intro g ds m
  rw [drain_append]
  exact processMessage_lastClick _ m

/-- Counterexample to C10 as stated: one batch holds the down-transitions of the digits 1 and
2. Both take the assignment to `number`: it is 1 after the first message and 2 after the
second. -/
theorem two_digit_edges_write_twice :
    [Delivery.queued digit1Down, Delivery.queued digit2Down].countP
      (fun d => decide (writesNumber d)) = 2 ∧
    (win32ProcessPendingMessages (loopEntry (envOf []))
      [Delivery.queued digit1Down]).1.gInput.number = 1 ∧
    (win32ProcessPendingMessages (loopEntry (envOf []))
      [Delivery.queued digit1Down, Delivery.queued digit2Down]).1.gInput.number = 2 := by
  decide

theorem drain_number_lastDigitWritten (ds : List Delivery) :
    ∀ g : Globals, (win32ProcessPendingMessages g ds).1.gInput.number
      = (lastDigitWritten ds).getD g.gInput.number := by
  induction ds with
  | nil => intro g; rfl
  | cons d ds ih =>
    intro g
    simp only [win32ProcessPendingMessages, lastDigitWritten]
    rw [ih, deliver_number]
    cases h : lastDigitWritten ds with
    | some v => rfl
    | none =>
      cases d with
      | queued m =>
        by_cases hw : writesNumber (Delivery.queued m) <;> simp [digitWritten, hw]
      | sent msg => simp [digitWritten]

theorem drain_functionKey_lastFunctionKeyWritten (ds : List Delivery) :
    ∀ g : Globals, (win32ProcessPendingMessages g ds).1.gInput.functionKey
      = (lastFunctionKeyWritten ds).getD g.gInput.functionKey := by
  induction ds with
  | nil => intro g; rfl
  | cons d ds ih =>
    intro g
    simp only [win32ProcessPendingMessages, lastFunctionKeyWritten]
    rw [ih, deliver_functionKey]
    cases h : lastFunctionKeyWritten ds with
    | some v => rfl
    | none =>
      cases d with
      | queued m =>
        by_cases hw : writesFunctionKey (Delivery.queued m) <;> simp [functionKeyWritten, hw]
      | sent msg => simp [functionKeyWritten]

/-- C10, amended: a frame whose drain finds the deliveries `batch`. Every down-transition of a
digit key in the batch assigns `number` and every down-transition of an F1-F12 key other than
Alt+F4 assigns `functionKey`; no other delivery assigns either latch, and an assignment to one
latch leaves the other as it was. So after the batch `number` is the digit of the last delivery
that assigns it, or its value before the batch when none does, and likewise `functionKey`;
these are the values in the input the game logic receives for the frame. In the split form: a
message that assigns a latch, followed only by deliveries that do not assign that same latch,
decides the latch, whatever precedes it and whatever happens to the other latch. -/
theorem latch_holds_last_edge (freq : Int) (g : Globals) (time now : Int)
    (batch : List Delivery) (fs : List Frame) (hrun : g.gRunning = true) :
    (win32ProcessPendingMessages g batch).1.gInput.number
      = (lastDigitWritten batch).getD g.gInput.number ∧
    (win32ProcessPendingMessages g batch).1.gInput.functionKey
      = (lastFunctionKeyWritten batch).getD g.gInput.functionKey ∧
    (∃ (inp : GameInput) (rest : List GameInput),
      gameInputs (mainLoop freq g time ({ pending := batch, now := now } :: fs)).events
        = inp :: rest ∧
      inp.number = (lastDigitWritten batch).getD g.gInput.number ∧
      inp.functionKey = (lastFunctionKeyWritten batch).getD g.gInput.functionKey) ∧
    (∀ (pre post : List Delivery) (m : MSG), batch = pre ++ Delivery.queued m :: post →
      writesNumber (Delivery.queued m) → (∀ d ∈ post, ¬ writesNumber d) →
      (win32ProcessPendingMessages g batch).1.gInput.number = digitOf m) ∧
    (∀ (pre post : List Delivery) (m : MSG), batch = pre ++ Delivery.queued m :: post →
      writesFunctionKey (Delivery.queued m) → (∀ d ∈ post, ¬ writesFunctionKey d) →
      (win32ProcessPendingMessages g batch).1.gInput.functionKey = functionKeyOf m) ∧
    ((∀ d ∈ batch, ¬ writesNumber d) →
      (win32ProcessPendingMessages g batch).1.gInput.number = g.gInput.number) ∧
    ((∀ d ∈ batch, ¬ writesFunctionKey d) →
      (win32ProcessPendingMessages g batch).1.gInput.functionKey = g.gInput.functionKey) := by
  refine ⟨drain_number_lastDigitWritten batch g,
    drain_functionKey_lastFunctionKeyWritten batch g, ?_, ?_, ?_,
    drain_number_unchanged g batch, drain_functionKey_unchanged g batch⟩
  · refine ⟨_, _, mainLoop_inputs_cons freq g time _ fs hrun, ?_, ?_⟩
    · exact drain_number_lastDigitWritten batch g
    · exact drain_functionKey_lastFunctionKeyWritten batch g
  · intro pre post m hb hw hp
    rw [hb]
    exact drain_number_last g pre post m hw hp
  · intro pre post m hb hw hp
    rw [hb]
    exact drain_functionKey_last g pre post m hw hp

/-- Witness of C10: the batch with the down-transitions of 1, of 2 and of F5, in this order,
leaves `number = 2` and `functionKey = 5`; the batch with the down-transition of 1 followed by
that of F5 leaves `number = 1` and `functionKey = 5`. -/
theorem latch_holds_last_edge_witness :
    ((win32ProcessPendingMessages (loopEntry (envOf []))
      [Delivery.queued digit1Down, Delivery.queued digit2Down,
        Delivery.queued f5Down]).1.gInput.number = 2 ∧
     (win32ProcessPendingMessages (loopEntry (envOf []))
      [Delivery.queued digit1Down, Delivery.queued digit2Down,
        Delivery.queued f5Down]).1.gInput.functionKey = 5) ∧
    ((win32ProcessPendingMessages (loopEntry (envOf []))
      [Delivery.queued digit1Down, Delivery.queued f5Down]).1.gInput.number = 1 ∧
     (win32ProcessPendingMessages (loopEntry (envOf []))
      [Delivery.queued digit1Down, Delivery.queued f5Down]).1.gInput.functionKey = 5) :=
  have h := latch_holds_last_edge 10000000 (loopEntry (envOf [])) 0 10
    [Delivery.queued digit1Down, Delivery.queued digit2Down, Delivery.queued f5Down] [] rfl
  have k := latch_holds_last_edge 10000000 (loopEntry (envOf [])) 0 10
    [Delivery.queued digit1Down, Delivery.queued f5Down] [] rfl
  ⟨⟨h.1.trans (by decide), h.2.1.trans (by decide)⟩,
   ⟨k.1.trans (by decide), k.2.1.trans (by decide)⟩⟩

theorem mainLoop_inputs_after_first (freq : Int) (bs : List Frame) :
    ∀ (b : Frame) (g : Globals) (time : Int) (rest : List Frame) (i : Nat) (inp : GameInput),
      (gameInputs (mainLoop freq g time (b :: bs ++ rest)).events)[bs.length + 1 + i]?
        = some inp →
      ∃ (s : Globals) (t : Int), s.gRunning = true ∧ s.gInput.functionKey = 0 ∧
        s.gInput.number = -1 ∧ (gameInputs (mainLoop freq s t rest).events)[i]? = some inp := by
  induction bs with
  | nil =>
    intro b g time rest i inp h
    by_cases hr : g.gRunning = true
    · rw [List.cons_append, List.nil_append, mainLoop_inputs_cons freq g time b _ hr] at h
      have e : ([] : List Frame).length + 1 + i = i + 1 := by simp; omega
      rw [e, List.getElem?_cons_succ] at h
      refine ⟨endFrame (win32ProcessPendingMessages g b.pending).1, b.now, ?_, rfl, rfl, h⟩
      by_contra hs
      rw [mainLoop_stopped freq _ b.now _ (by simpa using hs)] at h
      simp [gameInputs] at h
    · rw [mainLoop_stopped freq g time _ (by simpa using hr)] at h
      simp [gameInputs] at h
  | cons c cs ih =>
    intro b g time rest i inp h
    by_cases hr : g.gRunning = true
    · rw [List.cons_append, mainLoop_inputs_cons freq g time b _ hr] at h
      have e : (c :: cs).length + 1 + i = (cs.length + 1 + i) + 1 := by simp; omega
      rw [e, List.getElem?_cons_succ] at h
      exact ih c _ _ rest i inp h
    · rw [mainLoop_stopped freq g time _ (by simpa using hr)] at h
      simp [gameInputs] at h

/-- The part of C1 that the code keeps: in every frame after the first whose batch assigns
neither latch, the input has `functionKey = 0` and `number = -1`. -/
theorem later_frame_latches_none (env : Env) (b : Frame) (bs after : List Frame) (f : Frame)
    (hreg : env.registerClassOk = true) (hwin : env.createWindowOk = true)
    (hframes : env.frames = b :: bs ++ f :: after)
    (hquiet : ∀ d ∈ f.pending, ¬ writesFunctionKey d ∧ ¬ writesNumber d) :
    ∀ inp, (inputsSeen env)[bs.length + 1]? = some inp →
      inp.functionKey = 0 ∧ inp.number = -1 := by
  intro inp h
  rw [inputsSeen_eq env hreg hwin, hframes] at h
  obtain ⟨s, t, hs, hf, hn, h0⟩ :=
    mainLoop_inputs_after_first env.freq bs b _ _ (f :: after) 0 inp (by simpa using h)
  rw [mainLoop_inputs_cons env.freq s t f after hs] at h0
  simp only [List.getElem?_cons_zero, Option.some.injEq] at h0
  subst h0
  simp only [frameInput]
  rw [drain_functionKey_unchanged _ _ (fun d hd => (hquiet d hd).1),
    drain_number_unchanged _ _ (fun d hd => (hquiet d hd).2)]
  exact ⟨hf, hn⟩
/-! ## The off-screen buffer -/

theorem bytes_of_sizeFits (c : ResizeCall) (h : sizeFits c) :
    toSizeT (wrapInt32 (wrapInt32 (c.width * c.height) * 4)) = (c.width * c.height * 4).toNat := by
  obtain ⟨h1, h2, _, _, h5⟩ := h
  have hp : 0 ≤ c.width * c.height := mul_nonneg h1 h2
  generalize c.width * c.height = p at hp h5
  unfold toSizeT wrapInt32
  have e1 : (p + 2 ^ 31) % 2 ^ 32 - 2 ^ 31 = p := by omega
  rw [e1]
  have e2 : (p * 4 + 2 ^ 31) % 2 ^ 32 - 2 ^ 31 = p * 4 := by omega
  rw [e2]
  have e3 : p * 4 % 2 ^ 64 = p * 4 := by omega
  rw [e3]

theorem resize_log (b : Win32OffScreenBuffer) (c : ResizeCall) (h : sizeFits c) :
    (win32ResizeDIBSection b c.width c.height c.allocated).2 =
      (if b.memory ≠ 0 then [Event.virtualFree b.memory] else [])
        ++ [Event.virtualAlloc (c.width * c.height * 4).toNat c.allocated] := by
  simp only [win32ResizeDIBSection, bytes_of_sizeFits c h]

theorem resize_log_shape (b : Win32OffScreenBuffer) (w h : Int) (p : Nat) :
    (win32ResizeDIBSection b w h p).2 =
      (if b.memory ≠ 0 then [Event.virtualFree b.memory] else [])
        ++ [Event.virtualAlloc (toSizeT (wrapInt32 (wrapInt32 (w * h) * 4))) p] := rfl

theorem resize_memory (b : Win32OffScreenBuffer) (w h : Int) (p : Nat) :
    (win32ResizeDIBSection b w h p).1.memory = p := rfl

theorem resizeAll_append (b : Win32OffScreenBuffer) (xs ys : List ResizeCall) :
    resizeAll b (xs ++ ys) =
      ((resizeAll (resizeAll b xs).1 ys).1,
       (resizeAll b xs).2 ++ (resizeAll (resizeAll b xs).1 ys).2) := by
  induction xs generalizing b with
  | nil => simp [resizeAll]
  | cons c cs ih => simp [resizeAll, ih, List.append_assoc]

theorem allocationRequests_append (xs ys : List Event) :
    allocationRequests (xs ++ ys) = allocationRequests xs ++ allocationRequests ys := by
  induction xs with
  | nil => simp [allocationRequests]
  | cons e es ih => cases e <;> simp [allocationRequests, ih]

theorem allocationRequests_resizeAll (cs : List ResizeCall) :
    ∀ b : Win32OffScreenBuffer, (∀ x ∈ cs, sizeFits x) →
      allocationRequests (resizeAll b cs).2
        = cs.map (fun x => (x.width * x.height * 4).toNat) := by
  induction cs with
  | nil => intro b _; rfl
  | cons c cs ih =>
    intro b hfit
    simp only [resizeAll, allocationRequests_append, List.map_cons]
    rw [ih _ (fun x hx => hfit x (List.mem_cons_of_mem _ hx)),
      resize_log b c (hfit c (List.mem_cons_self _ _))]
    by_cases hm : b.memory = 0 <;> simp [hm, allocationRequests]

theorem liveBlocks_resize (b : Win32OffScreenBuffer) (w h : Int) (p : Nat) (rest : List Event) :
    liveBlocks (held b) ((win32ResizeDIBSection b w h p).2 ++ rest)
      = liveBlocks (held (win32ResizeDIBSection b w h p).1) rest := by
  rw [resize_log_shape]
  unfold held
  rw [resize_memory]
  by_cases hm : b.memory = 0
  · by_cases hp : p = 0 <;> simp [hm, hp, liveBlocks]
  · by_cases hp : p = 0 <;> simp [hm, hp, liveBlocks]

theorem liveBlocks_resizeAll (cs : List ResizeCall) :
    ∀ b : Win32OffScreenBuffer,
      liveBlocks (held b) (resizeAll b cs).2 = some (held (resizeAll b cs).1) := by
  induction cs with
  | nil => intro b; rfl
  | cons c cs ih =>
    intro b
    simp only [resizeAll]
    rw [liveBlocks_resize, ih]

theorem held_length (b : Win32OffScreenBuffer) : (held b).length ≤ 1 := by
  unfold held
  split <;> simp

theorem liveBlocks_take_resizeAll (cs : List ResizeCall) :
    ∀ (b : Win32OffScreenBuffer) (k : Nat),
      ∃ live, liveBlocks (held b) ((resizeAll b cs).2.take k) = some live ∧ live.length ≤ 1 := by
  induction cs with
  | nil =>
    intro b k
    exact ⟨held b, by simp [resizeAll, liveBlocks], held_length b⟩
  | cons c cs ih =>
    intro b k
    simp only [resizeAll]
    by_cases hk : (win32ResizeDIBSection b c.width c.height c.allocated).2.length ≤ k
    · rw [List.take_append_eq_append_take, List.take_of_length_le hk, liveBlocks_resize]
      exact ih _ _
    · rw [List.take_append_eq_append_take]
      have hz : k - (win32ResizeDIBSection b c.width c.height c.allocated).2.length = 0 := by
        omega
      rw [hz, List.take_zero, List.append_nil]
      rw [resize_log_shape] at hk ⊢
      by_cases hm : b.memory = 0
      · have hk0 : k = 0 := by
          simp only [hm, ne_eq, not_true_eq_false, if_false, List.nil_append,
            List.length_singleton] at hk
          omega
        subst hk0
        exact ⟨held b, by simp [liveBlocks], held_length b⟩
      · have hk2 : k = 0 ∨ k = 1 := by
          simp only [hm, ne_eq, not_false_eq_true, if_true, List.singleton_append,
            List.length_cons, List.length_singleton, List.length_nil] at hk
          omega
        rcases hk2 with rfl | rfl
        · exact ⟨held b, by simp [liveBlocks], held_length b⟩
        · exact ⟨[], by simp [liveBlocks, held, hm], by simp⟩

/-- C8, amended: the calls `cs` and then `c` are made on the buffer that starts empty, every
size being non-negative with a byte count `W * H * 4` that fits a 32-bit `int`. Each call asks
the allocator for `W * H * 4` bytes, once, after releasing the block the buffer held, if any.
After every initial part of the allocator calls at most one block is live and no release hits a
block that is not live; at the end the live blocks are exactly the one the buffer holds.
The buffer then has the width, height and block of the last call and its header describes a
surface `W` wide, of height `-H` (top-down), with 32 bits per pixel in one plane. -/
theorem resize_sequence_discipline (cs : List ResizeCall) (c : ResizeCall)
    (hfit : ∀ x ∈ cs ++ [c], sizeFits x) :
    (∀ (b : Win32OffScreenBuffer) (x : ResizeCall), sizeFits x →
      (win32ResizeDIBSection b x.width x.height x.allocated).2 =
        (if b.memory ≠ 0 then [Event.virtualFree b.memory] else [])
          ++ [Event.virtualAlloc (x.width * x.height * 4).toNat x.allocated]) ∧
    allocationRequests (resizeAll zeroBuffer (cs ++ [c])).2
      = (cs ++ [c]).map (fun x => (x.width * x.height * 4).toNat) ∧
    (∀ k, ∃ live,
      liveBlocks [] ((resizeAll zeroBuffer (cs ++ [c])).2.take k) = some live ∧
      live.length ≤ 1) ∧
    liveBlocks [] (resizeAll zeroBuffer (cs ++ [c])).2
      = some (held (resizeAll zeroBuffer (cs ++ [c])).1) ∧
    (resizeAll zeroBuffer (cs ++ [c])).1.memory = c.allocated ∧
    (resizeAll zeroBuffer (cs ++ [c])).1.width = c.width ∧
    (resizeAll zeroBuffer (cs ++ [c])).1.height = c.height ∧
    (resizeAll zeroBuffer (cs ++ [c])).1.info.biWidth = c.width ∧
    (resizeAll zeroBuffer (cs ++ [c])).1.info.biHeight = -c.height ∧
    (resizeAll zeroBuffer (cs ++ [c])).1.info.biBitCount = 32 ∧
    (resizeAll zeroBuffer (cs ++ [c])).1.info.biPlanes = 1 := by
  have hc : sizeFits c := hfit c (by simp)
  have hh : wrapInt32 (-c.height) = -c.height := by
    obtain ⟨_, h2, _, h4, _⟩ := hc
    unfold wrapInt32
    omega
  refine ⟨resize_log, allocationRequests_resizeAll _ zeroBuffer hfit,
    liveBlocks_take_resizeAll _ zeroBuffer, liveBlocks_resizeAll _ zeroBuffer, ?_⟩
  rw [resizeAll_append]
  simp [resizeAll, win32ResizeDIBSection, hh]

/-- Witness of C8: 800 x 600 as at startup, then 1024 x 768. -/
theorem resize_sequence_discipline_witness :
    (resizeAll zeroBuffer [⟨800, 600, 0x10000⟩, ⟨1024, 768, 0x20000⟩]).2
      = [Event.virtualAlloc 1920000 0x10000, Event.virtualFree 0x10000,
          Event.virtualAlloc 3145728 0x20000] ∧
    liveBlocks [] (resizeAll zeroBuffer ([⟨800, 600, 0x10000⟩] ++ [⟨1024, 768, 0x20000⟩])).2
      = some (held (resizeAll zeroBuffer ([⟨800, 600, 0x10000⟩] ++ [⟨1024, 768, 0x20000⟩])).1) :=
  ⟨by decide,
   (resize_sequence_discipline [⟨800, 600, 0x10000⟩] ⟨1024, 768, 0x20000⟩
      (by decide)).2.2.2.1⟩

/-- Counterexample to C8 as stated: after 800 x 600 the buffer is resized to 32768 x 32768. The
byte count `W * H * 4` is 4294967296, which a 32-bit `int` cannot hold: the call asks the
allocator for 0 bytes. -/
theorem resize_request_wraps :
    allocationRequests (resizeAll zeroBuffer [⟨800, 600, 0x10000⟩, ⟨32768, 32768, 0⟩]).2
      = [1920000, 0] ∧
    ((32768 : Int) * 32768 * 4).toNat = 4294967296 := by
  decide

end Win32
